import Mathlib

/-!
Verification development for the WMS mock server
(src/wms_server/index.js): a TCP JSON-lines package-lifecycle engine
with an adapter registry, timer-driven transitions and failure
injection.  The JavaScript source is shallowly embedded: the in-memory
Maps become association lists with Map semantics (set replaces in
place or appends; delete removes), wall-clock ISO timestamps become a
Nat clock, setTimeout callbacks become explicit pending timers, and
each Math.random() < ERROR_RATE draw becomes a Bool oracle supplied at
the step that performs the draw.  The uuid-derived shortId fragments
are modelled by an injective tag generator driven by a counter; their
only property used by the source is freshness.
-/

namespace Wms

/-- Association list with JS Map lookup semantics (first matching key). -/
def mapGet {K V : Type} [DecidableEq K] (l : List (K × V)) (k : K) : Option V :=
  (l.find? (fun e => e.1 = k)).map (fun e => e.2)

/-- JS Map.has. -/
def mapHas {K V : Type} [DecidableEq K] (l : List (K × V)) (k : K) : Bool :=
  l.any (fun e => e.1 = k)

/-- JS Map.set: replace the value in place when the key exists, else append. -/
def mapSet {K V : Type} [DecidableEq K] (l : List (K × V)) (k : K) (v : V) :
    List (K × V) :=
  if mapHas l k then
    l.map (fun e => if e.1 = k then (k, v) else e)
  else
    l ++ [(k, v)]

/-- JS Map.delete: remove every entry with the key. -/
def mapDelete {K V : Type} [DecidableEq K] (l : List (K × V)) (k : K) :
    List (K × V) :=
  l.filter (fun e => ¬ e.1 = k)

/-- Update the value stored under a key when present; no entry is created. -/
def mapAdjust {K V : Type} [DecidableEq K] (l : List (K × V)) (k : K)
    (f : V → V) : List (K × V) :=
  l.map (fun e => if e.1 = k then (k, f e.2) else e)

/-- JS string truthiness: for strings the only falsy value is the empty
string; an absent field is modelled as the empty string. -/
def truthy (s : String) : Bool := ¬ s = ""

/-- Injective model of a fresh uuid fragment (shortId in the source):
the n-th generated fragment.  The source relies only on uniqueness. -/
def idTag (n : Nat) : String := String.mk (List.replicate n 'A')

/-- makePackageId in the source: a fixed prefix plus a fresh fragment. -/
def makePackageId (n : Nat) : String := "pkg-" ++ idTag n

/-- Package status strings used by the source, as a closed type. -/
inductive PStatus where
  | received
  | ready_for_loading
  | scanned
  | loaded
  | error
  deriving DecidableEq, Repr

/-- Inbound TCP message after JSON decoding.  Absent string fields are
the empty string (JS falsy), mirroring the truthiness tests of the
source. -/
structure Msg where
  type : String := ""
  adapterId : String := ""
  capabilities : List String := []
  orderId : String := ""
  clientOrderRef : String := ""
  items : List String := []
  pickup : String := ""
  delivery : String := ""
  contact : String := ""
  callbackMeta : String := ""
  packageId : String := ""
  scanPoint : String := ""
  vehicleId : String := ""
  error : String := ""
  deriving DecidableEq, Repr

/-- Outbound events written by sendLine, with the fields the source
puts in each JSON object (absent string fields are empty). -/
inductive OutMsg where
  | err (message : String) (packageId : String) (orderId : String)
  | registerAck (adapterId : String) (timestamp : Nat)
  | ack (messageId : String) (packageId : String) (orderId : String)
  | packageReceived (packageId : String) (orderId : String) (timestamp : Nat)
  | packageReady (packageId : String) (orderId : String) (timestamp : Nat)
  | packageScanned (packageId : String) (orderId : String)
      (scanPoint : String) (timestamp : Nat)
  | packageLoaded (packageId : String) (orderId : String)
      (vehicleId : String) (timestamp : Nat)
  | unknownType (received : String)
  deriving DecidableEq, Repr

/-- A stored package object (the packages Map values).  The timestamps
map of the source is flattened into one optional field per status. -/
structure Package where
  packageId : String
  orderId : String
  clientOrderRef : String := ""
  items : List String := []
  pickup : String := ""
  delivery : String := ""
  contact : String := ""
  status : PStatus
  assignedVehicle : String := ""
  tsReceived : Option Nat := none
  tsReady : Option Nat := none
  tsScanned : Option Nat := none
  tsLoaded : Option Nat := none
  tsError : Option Nat := none
  meta : String := ""
  deriving DecidableEq, Repr

/-- A registry entry (the adapters Map values). -/
structure AdapterEntry where
  socket : Nat
  capabilities : List String := []
  lastSeen : Nat := 0
  deriving DecidableEq, Repr

/-- Per-connection state: the closure variable adapterId of the data
handler ("" while null) and whether the socket has closed. -/
structure ConnSt where
  adapterId : String := ""
  closed : Bool := false
  deriving DecidableEq, Repr

/-- A pending setTimeout callback.  receivedT is the outer callback of
handleReceivePackage (emits package_received then schedules readyT),
readyT its nested callback (emits package_ready or an injected error),
loadT the callback of handleLoadPackage.  Each stores the socket it
captured, the package it mutates, and its due time. -/
inductive Timer where
  | receivedT (conn : Nat) (packageId : String) (due : Nat)
  | readyT (conn : Nat) (packageId : String) (due : Nat)
  | loadT (conn : Nat) (packageId : String) (vehicleId : String) (due : Nat)
  deriving DecidableEq, Repr

/-- Configured delays (env defaults in the source). -/
structure Config where
  defaultDelayMs : Nat := 3000
  readyExtraMs : Nat := 1000
  loadDelayMs : Nat := 2000
  deriving DecidableEq, Repr

/-- The whole server state: the two Maps, the error-mode flag, the
connections with their handler closures, pending timers, the clock,
the fresh-id counter, and the chronological log of delivered lines. -/
structure ServerState where
  adapters : List (String × AdapterEntry) := []
  packages : List (String × Package) := []
  errorMode : Bool := false
  conns : List (Nat × ConnSt) := []
  timers : List Timer := []
  clock : Nat := 0
  nextId : Nat := 0
  out : List (Nat × OutMsg) := []
  cfg : Config := {}
  deriving DecidableEq, Repr

/-- The state at process start. -/
def initState : ServerState := {}

/-- sendLine: write one line to a socket unless it is gone or
destroyed; a delivered line is appended to the log. -/
def sendLine (st : ServerState) (c : Nat) (m : OutMsg) : ServerState :=
  match mapGet st.conns c with
  | none => st
  | some cs => if cs.closed then st else { st with out := st.out ++ [(c, m)] }

/-- broadcastToAdapters: sendLine to every registry entry in insertion
order. -/
def broadcastToAdapters (st : ServerState) (m : OutMsg) : ServerState :=
  st.adapters.foldl (fun s e => sendLine s e.2.socket m) st

/-- sendToAdapterById: directed best-effort delivery, a no-op when the
identity is unknown. -/
def sendToAdapterById (st : ServerState) (adapterId : String) (m : OutMsg) :
    ServerState :=
  match mapGet st.adapters adapterId with
  | none => st
  | some info => sendLine st info.socket m

/-- handleReceivePackage: validate orderId, consult failure injection
(errorMode or a random draw), else create the package with status
received and a received timestamp, ack immediately, and schedule the
package_received callback after the base delay. -/
def handleReceivePackage (st : ServerState) (c : Nat) (msg : Msg)
    (rand : Bool) : ServerState :=
  if ¬ truthy msg.orderId then
    sendLine st c (.err "missing_orderId" "" "")
  else if st.errorMode || rand then
    sendLine st c (.err "simulated_receive_failure" "" msg.orderId)
  else
    let pid := makePackageId st.nextId
    let pkg : Package :=
      { packageId := pid
        orderId := msg.orderId
        clientOrderRef := msg.clientOrderRef
        items := msg.items
        pickup := msg.pickup
        delivery := msg.delivery
        contact := msg.contact
        status := .received
        tsReceived := some st.clock
        meta := msg.callbackMeta }
    let st1 := { st with
      packages := mapSet st.packages pid pkg
      nextId := st.nextId + 2 }
    let st2 := sendLine st1 c
      (.ack ("m-" ++ idTag (st.nextId + 1)) pid msg.orderId)
    { st2 with
      timers := st2.timers ++
        [.receivedT c pid (st.clock + st.cfg.defaultDelayMs)] }

/-- handleScanPackage: validate packageId, look the package up, set
status scanned with a timestamp and emit package_scanned synchronously
(no status precondition is checked). -/
def handleScanPackage (st : ServerState) (c : Nat) (msg : Msg) : ServerState :=
  if ¬ truthy msg.packageId then
    sendLine st c (.err "missing_packageId" "" "")
  else
    match mapGet st.packages msg.packageId with
    | none => sendLine st c (.err "package_not_found" "" "")
    | some p =>
      let p1 := { p with status := .scanned, tsScanned := some st.clock }
      let st1 := { st with packages := mapSet st.packages msg.packageId p1 }
      sendLine st1 c
        (.packageScanned p.packageId p.orderId
          (if truthy msg.scanPoint then msg.scanPoint else "unknown") st.clock)

/-- handleLoadPackage: validate packageId, resolve the vehicle id
(generated when absent), and schedule the load callback after the load
delay; nothing is sent synchronously. -/
def handleLoadPackage (st : ServerState) (c : Nat) (msg : Msg) : ServerState :=
  if ¬ truthy msg.packageId then
    sendLine st c (.err "missing_packageId" "" "")
  else
    match mapGet st.packages msg.packageId with
    | none => sendLine st c (.err "package_not_found" "" "")
    | some _ =>
      let vid := if truthy msg.vehicleId then msg.vehicleId
                 else "v-" ++ idTag st.nextId
      let st1 := if truthy msg.vehicleId then st
                 else { st with nextId := st.nextId + 1 }
      { st1 with
        timers := st1.timers ++
          [.loadT c msg.packageId vid (st.clock + st.cfg.loadDelayMs)] }

/-- handleTcpMessage: the per-line dispatcher.  register_adapter binds
an identity (generated when absent) to the socket, overwriting any
entry under the same identity, records it in the connection closure
and acks; simulate_error flips an existing package to error and sends
the error both directly and as a broadcast; unknown types get an
unknown_type error. -/
def handleTcpMessage (st : ServerState) (c : Nat) (msg : Msg)
    (rand : Bool) : ServerState :=
  if ¬ truthy msg.type then
    sendLine st c (.err "missing_type" "" "")
  else if msg.type = "register_adapter" then
    let aid := if truthy msg.adapterId then msg.adapterId
               else "adapter-" ++ idTag st.nextId
    let st0 := if truthy msg.adapterId then st
               else { st with nextId := st.nextId + 1 }
    let st1 := { st0 with
      adapters := mapSet st0.adapters aid
        { socket := c, capabilities := msg.capabilities, lastSeen := st.clock }
      conns := mapAdjust st0.conns c (fun cs => { cs with adapterId := aid }) }
    sendLine st1 c (.registerAck aid st.clock)
  else if msg.type = "receive_package" then
    handleReceivePackage st c msg rand
  else if msg.type = "scan_package" then
    handleScanPackage st c msg
  else if msg.type = "load_package" then
    handleLoadPackage st c msg
  else if msg.type = "simulate_error" then
    if truthy msg.packageId ∧ mapHas st.packages msg.packageId then
      match mapGet st.packages msg.packageId with
      | none => st
      | some p =>
        let p1 := { p with status := .error, tsError := some st.clock }
        let st1 := { st with packages := mapSet st.packages msg.packageId p1 }
        let emsg := if truthy msg.error then msg.error else "simulated_error"
        let st2 := sendLine st1 c (.err emsg msg.packageId "")
        broadcastToAdapters st2 (.err emsg msg.packageId "")
    else
      sendLine st c (.err "package_not_found" "" "")
  else
    sendLine st c (.unknownType msg.type)

/-- Fire the pending timer at position i at wall time t (the clock
never moves backwards).  The outer receive callback re-asserts status
received, overwrites the received timestamp with the firing time,
emits package_received and schedules the ready callback; the ready and
load callbacks consult failure injection before their transition. -/
def fireTimerAct (st : ServerState) (i : Nat) (t : Nat) (rand : Bool) :
    ServerState :=
  match st.timers[i]? with
  | none => st
  | some tm =>
    let now := max st.clock t
    let due := match tm with
      | .receivedT _ _ d => d
      | .readyT _ _ d => d
      | .loadT _ _ _ d => d
    if now < due then st
    else
      let st0 := { st with timers := st.timers.eraseIdx i, clock := now }
      match tm with
      | .receivedT c pid _ =>
        match mapGet st0.packages pid with
        | none => st0
        | some p =>
          let p1 := { p with status := .received, tsReceived := some now }
          let st1 := { st0 with packages := mapSet st0.packages pid p1 }
          let st2 := sendLine st1 c (.packageReceived pid p.orderId now)
          { st2 with
            timers := st2.timers ++ [.readyT c pid (now + st.cfg.readyExtraMs)] }
      | .readyT c pid _ =>
        match mapGet st0.packages pid with
        | none => st0
        | some p =>
          if st0.errorMode || rand then
            let p1 := { p with status := .error, tsError := some now }
            let st1 := { st0 with packages := mapSet st0.packages pid p1 }
            sendLine st1 c (.err "simulated_processing_error" pid p.orderId)
          else
            let p1 := { p with status := .ready_for_loading, tsReady := some now }
            let st1 := { st0 with packages := mapSet st0.packages pid p1 }
            sendLine st1 c (.packageReady pid p.orderId now)
      | .loadT c pid vid _ =>
        match mapGet st0.packages pid with
        | none => st0
        | some p =>
          if st0.errorMode || rand then
            let p1 := { p with status := .error, tsError := some now }
            let st1 := { st0 with packages := mapSet st0.packages pid p1 }
            sendLine st1 c (.err "simulated_load_error" pid p.orderId)
          else
            let p1 := { p with status := .loaded, assignedVehicle := vid, tsLoaded := some now }
            let st1 := { st0 with packages := mapSet st0.packages pid p1 }
            sendLine st1 c (.packageLoaded pid p.orderId vid now)

/-- External stimuli of the engine: a connection opens, a decoded
message arrives on an open connection at wall time t (rand is the
outcome of the Math.random draw, when one happens), a pending timer
fires, a connection closes (removing the registration stored under the
closure adapterId), and the forced-failure toggle. -/
inductive Action where
  | connect (c : Nat)
  | msgA (c : Nat) (t : Nat) (m : Msg) (rand : Bool)
  | fire (i : Nat) (t : Nat) (rand : Bool)
  | close (c : Nat) (t : Nat)
  | setErrorMode (b : Bool)
  deriving DecidableEq, Repr

/-- Modelled from the spec: the forced-failure toggle is the only
in-process mutation of errorMode the core must expose (its HTTP admin
caller is commented out in src); everything else is translated
directly from the source handlers. -/
def step (st : ServerState) (a : Action) : ServerState :=
  match a with
  | .connect c =>
    if mapHas st.conns c then st
    else { st with conns := st.conns ++ [(c, {})] }
  | .msgA c t m rand =>
    match mapGet st.conns c with
    | none => st
    | some cs =>
      if cs.closed then st
      else handleTcpMessage { st with clock := max st.clock t } c m rand
  | .fire i t rand => fireTimerAct st i t rand
  | .close c t =>
    match mapGet st.conns c with
    | none => st
    | some cs =>
      if cs.closed then st
      else
        let st1 := { st with
          clock := max st.clock t
          conns := mapAdjust st.conns c (fun x => { x with closed := true }) }
        if truthy cs.adapterId ∧ mapHas st1.adapters cs.adapterId then
          { st1 with adapters := mapDelete st1.adapters cs.adapterId }
        else st1
  | .setErrorMode b => { st with errorMode := b }

/-- Run a list of external stimuli from a state. -/
def run (st : ServerState) (acts : List Action) : ServerState :=
  acts.foldl step st

/-- JS String.prototype.trim: strip leading and trailing whitespace. -/
def trimString (s : String) : String :=
  String.mk
    (((s.data.dropWhile Char.isWhitespace).reverse.dropWhile
      Char.isWhitespace).reverse)

/-- Connection-and-framing layer: one extracted line of the per-socket
buffer, exactly as the data handler processes it — trim, skip empty,
decode (the JSON decoder is the oracle parse), answer invalid_json on
decode failure, else dispatch. -/
def processLine (parse : String → Option Msg) (st : ServerState) (c : Nat)
    (line : String) (rand : Bool) : ServerState :=
  let l := trimString line
  if l = "" then st
  else
    match parse l with
    | none => sendLine st c (.err "invalid_json" "" "")
    | some m => handleTcpMessage st c m rand

/-- Process the complete lines extracted from the buffer, in order
(rand supplies the one random draw a dispatched line may consume). -/
def processLines (parse : String → Option Msg) (st : ServerState) (c : Nat)
    (ls : List (String × Bool)) : ServerState :=
  ls.foldl (fun s lr => processLine parse s c lr.1 lr.2) st

/-- The buffer-splitting loop of the data handler over characters:
cut at each newline; complete lines in order plus the remainder. -/
def splitNlGo : List Char → List Char → List (List Char) × List Char
  | [], acc => ([], acc.reverse)
  | ch :: cs, acc =>
    if ch = Char.ofNat 10 then
      let r := splitNlGo cs []
      (acc.reverse :: r.1, r.2)
    else
      splitNlGo cs (ch :: acc)

/-- The buffer-splitting loop of the data handler: repeatedly cut at
the first newline; the complete lines in order, and the remainder kept
in the buffer. -/
def extractLines (buf : String) : List String × String :=
  ((splitNlGo buf.data []).1.map String.mk,
    String.mk (splitNlGo buf.data []).2)

/-- The data event handler: append the chunk to the buffer, extract
every complete line and process it, keep the remainder buffered. -/
def onData (parse : String → Option Msg) (st : ServerState) (c : Nat)
    (buffer chunk : String) (rands : List Bool) : ServerState × String :=
  (processLines parse st c ((extractLines (buffer ++ chunk)).1.zip rands),
    (extractLines (buffer ++ chunk)).2)

/-- A socket is live: present and not destroyed. -/
def isOpen (st : ServerState) (c : Nat) : Bool :=
  match mapGet st.conns c with
  | none => false
  | some cs => ¬ cs.closed

section MapLemmas

variable {K V : Type} [DecidableEq K]

theorem find?_replace_self (l : List (K × V)) (k : K) (v : V)
    (h : mapHas l k = true) :
    (l.map (fun e => if e.1 = k then (k, v) else e)).find?
      (fun e => e.1 = k) = some (k, v) := by
  induction l with
  | nil => simp [mapHas] at h
  | cons e l ih =>
    by_cases he : e.1 = k
    · rw [List.map_cons, if_pos he, List.find?_cons_of_pos _ (by simp)]
    · have h' : mapHas l k = true := by
        have := h
        unfold mapHas at this ⊢
        rw [List.any_cons] at this
        simpa [he] using this
      rw [List.map_cons, if_neg he,
        List.find?_cons_of_neg _ (by simpa using he), ih h']

theorem find?_replace_ne (l : List (K × V)) (k k' : K) (v : V)
    (h : ¬ k' = k) :
    (l.map (fun e => if e.1 = k then (k, v) else e)).find?
      (fun e => e.1 = k') = l.find? (fun e => e.1 = k') := by
  induction l with
  | nil => simp
  | cons e l ih =>
    by_cases he : e.1 = k
    · have h1 : ¬ ((k, v).1 = k') := fun hh => h hh.symm
      have h2 : ¬ (e.1 = k') := fun hh => h (hh.symm.trans he)
      rw [List.map_cons, if_pos he,
        List.find?_cons_of_neg _ (by simpa using h1),
        List.find?_cons_of_neg _ (by simpa using h2)]
      exact ih
    · by_cases he' : e.1 = k'
      · rw [List.map_cons, if_neg he,
          List.find?_cons_of_pos _ (by simpa using he'),
          List.find?_cons_of_pos _ (by simpa using he')]
      · rw [List.map_cons, if_neg he,
          List.find?_cons_of_neg _ (by simpa using he'),
          List.find?_cons_of_neg _ (by simpa using he')]
        exact ih

theorem find?_none_of_not_has (l : List (K × V)) (k : K)
    (h : mapHas l k = false) :
    l.find? (fun e => e.1 = k) = none := by
  induction l with
  | nil => simp
  | cons e l ih =>
    unfold mapHas at h
    rw [List.any_cons] at h
    have he : ¬ (e.1 = k) := by
      intro hh
      simp [hh] at h
    have h' : mapHas l k = false := by
      unfold mapHas
      simpa [he] using h
    rw [List.find?_cons_of_neg _ (by simpa using he), ih h']

theorem mapGet_mapSet_self (l : List (K × V)) (k : K) (v : V) :
    mapGet (mapSet l k v) k = some v := by
  unfold mapSet
  cases h : mapHas l k with
  | true =>
    rw [if_pos rfl]
    unfold mapGet
    rw [find?_replace_self l k v h]
    rfl
  | false =>
    rw [if_neg (by simp)]
    unfold mapGet
    rw [List.find?_append, find?_none_of_not_has l k h]
    simp

theorem mapGet_mapSet_ne (l : List (K × V)) (k k' : K) (v : V)
    (h : ¬ k' = k) :
    mapGet (mapSet l k v) k' = mapGet l k' := by
  unfold mapSet
  cases hh : mapHas l k with
  | true =>
    rw [if_pos rfl]
    unfold mapGet
    rw [find?_replace_ne l k k' v h]
  | false =>
    rw [if_neg (by simp)]
    unfold mapGet
    rw [List.find?_append]
    cases hf : l.find? (fun e => decide (e.1 = k')) with
    | none =>
      have h1 : ¬ (k = k') := fun hh2 => h hh2.symm
      simp [List.find?_cons, h1]
    | some e => simp

theorem mapGet_mapDelete_self (l : List (K × V)) (k : K) :
    mapGet (mapDelete l k) k = none := by
  unfold mapGet mapDelete
  rw [List.find?_eq_none.2]
  · rfl
  · intro x hx
    have := (List.mem_filter.1 hx).2
    simpa using this

theorem mapGet_mapAdjust_self (l : List (K × V)) (k : K) (f : V → V) :
    mapGet (mapAdjust l k f) k = (mapGet l k).map f := by
  unfold mapAdjust mapGet
  induction l with
  | nil => simp
  | cons e l ih =>
    by_cases he : e.1 = k
    · rw [List.map_cons, if_pos he,
        List.find?_cons_of_pos _ (by simp),
        List.find?_cons_of_pos _ (by simpa using he)]
      simp
    · rw [List.map_cons, if_neg he,
        List.find?_cons_of_neg _ (by simpa using he),
        List.find?_cons_of_neg _ (by simpa using he)]
      exact ih

theorem mapGet_mapAdjust_ne (l : List (K × V)) (k k' : K) (f : V → V)
    (h : ¬ k' = k) :
    mapGet (mapAdjust l k f) k' = mapGet l k' := by
  unfold mapAdjust mapGet
  induction l with
  | nil => simp
  | cons e l ih =>
    by_cases he : e.1 = k
    · have h1 : ¬ ((k, f e.2).1 = k') := fun hh => h hh.symm
      have h2 : ¬ (e.1 = k') := fun hh => h (hh.symm.trans he)
      rw [List.map_cons, if_pos he,
        List.find?_cons_of_neg _ (by simpa using h1),
        List.find?_cons_of_neg _ (by simpa using h2)]
      exact ih
    · by_cases he' : e.1 = k'
      · rw [List.map_cons, if_neg he,
          List.find?_cons_of_pos _ (by simpa using he'),
          List.find?_cons_of_pos _ (by simpa using he')]
      · rw [List.map_cons, if_neg he,
          List.find?_cons_of_neg _ (by simpa using he'),
          List.find?_cons_of_neg _ (by simpa using he')]
        exact ih

end MapLemmas

section StateLemmas

/-- sendLine changes at most the output log. -/
theorem sendLine_eq (st : ServerState) (c : Nat) (m : OutMsg) :
    sendLine st c m = st ∨
      sendLine st c m = { st with out := st.out ++ [(c, m)] } := by
  unfold sendLine
  cases mapGet st.conns c with
  | none => exact Or.inl rfl
  | some cs =>
    by_cases h : cs.closed
    · simp [h]
    · simp [h]

theorem sendLine_isOpen (st : ServerState) (c : Nat) (m : OutMsg)
    (h : isOpen st c = true) :
    sendLine st c m = { st with out := st.out ++ [(c, m)] } := by
  unfold sendLine
  unfold isOpen at h
  cases hc : mapGet st.conns c with
  | none => rw [hc] at h; simp at h
  | some cs =>
    rw [hc] at h
    simp at h
    simp [h]

theorem sendLine_packages (st : ServerState) (c : Nat) (m : OutMsg) :
    (sendLine st c m).packages = st.packages := by
  rcases sendLine_eq st c m with h | h <;> rw [h]

theorem sendLine_adapters (st : ServerState) (c : Nat) (m : OutMsg) :
    (sendLine st c m).adapters = st.adapters := by
  rcases sendLine_eq st c m with h | h <;> rw [h]

theorem sendLine_conns (st : ServerState) (c : Nat) (m : OutMsg) :
    (sendLine st c m).conns = st.conns := by
  rcases sendLine_eq st c m with h | h <;> rw [h]

theorem sendLine_timers (st : ServerState) (c : Nat) (m : OutMsg) :
    (sendLine st c m).timers = st.timers := by
  rcases sendLine_eq st c m with h | h <;> rw [h]

theorem sendLine_clock (st : ServerState) (c : Nat) (m : OutMsg) :
    (sendLine st c m).clock = st.clock := by
  rcases sendLine_eq st c m with h | h <;> rw [h]

end StateLemmas

section StatementHelpers

/-- Status of a stored package. -/
def statusOf (st : ServerState) (pid : String) : Option PStatus :=
  (mapGet st.packages pid).map (fun p => p.status)

/-- Recorded received timestamp of a stored package. -/
def tsReceivedOf (st : ServerState) (pid : String) : Option Nat :=
  (mapGet st.packages pid).bind (fun p => p.tsReceived)

/-- Recorded scanned timestamp of a stored package. -/
def tsScannedOf (st : ServerState) (pid : String) : Option Nat :=
  (mapGet st.packages pid).bind (fun p => p.tsScanned)

/-- Number of lines delivered to one socket in a log. -/
def countTo (l : List (Nat × OutMsg)) (c : Nat) : Nat :=
  (l.filter (fun e => e.1 = c)).length

/-- The package object handleReceivePackage stores on acceptance. -/
def newPackage (st : ServerState) (msg : Msg) : Package :=
  { packageId := makePackageId st.nextId
    orderId := msg.orderId
    clientOrderRef := msg.clientOrderRef
    items := msg.items
    pickup := msg.pickup
    delivery := msg.delivery
    contact := msg.contact
    status := .received
    tsReceived := some st.clock
    meta := msg.callbackMeta }

end StatementHelpers

/-- C6: receive_package with an absent orderId answers a validation
error and changes nothing; a failure-injected rejection answers an
error event and creates no package and no timer; only the accepted
case stores a (fresh) package and its timer, and even then every other
entry of the package store is untouched. -/
theorem c6_receive_rejections_leave_store_unchanged
    (st : ServerState) (c : Nat) (msg : Msg) (rand : Bool)
    (hopen : isOpen st c = true) :
    (msg.orderId = "" →
      handleReceivePackage st c msg rand =
        { st with out := st.out ++ [(c, .err "missing_orderId" "" "")] }) ∧
    (¬ msg.orderId = "" → (st.errorMode || rand) = true →
      handleReceivePackage st c msg rand =
        { st with out :=
            st.out ++ [(c, .err "simulated_receive_failure" "" msg.orderId)] }) ∧
    (¬ msg.orderId = "" → (st.errorMode || rand) = false →
      (handleReceivePackage st c msg rand).packages =
        mapSet st.packages (makePackageId st.nextId) (newPackage st msg) ∧
      mapGet (handleReceivePackage st c msg rand).packages
        (makePackageId st.nextId) = some (newPackage st msg) ∧
      (∀ q, ¬ q = makePackageId st.nextId →
        mapGet (handleReceivePackage st c msg rand).packages q =
          mapGet st.packages q) ∧
      (handleReceivePackage st c msg rand).timers =
        st.timers ++ [.receivedT c (makePackageId st.nextId)
          (st.clock + st.cfg.defaultDelayMs)]) := by
  refine ⟨?_, ?_, ?_⟩
  · intro h
    unfold handleReceivePackage truthy
    rw [if_pos (by simp [h])]
    exact sendLine_isOpen st c _ hopen
  · intro h hinj
    unfold handleReceivePackage truthy
    rw [if_neg (by simpa using h), if_pos hinj]
    exact sendLine_isOpen st c _ hopen
  · intro h hinj
    have key : handleReceivePackage st c msg rand =
        { st with
          packages := mapSet st.packages (makePackageId st.nextId)
            (newPackage st msg)
          nextId := st.nextId + 2
          out := st.out ++ [(c, .ack ("m-" ++ idTag (st.nextId + 1))
            (makePackageId st.nextId) msg.orderId)]
          timers := st.timers ++ [.receivedT c (makePackageId st.nextId)
            (st.clock + st.cfg.defaultDelayMs)] } := by
      simp only [handleReceivePackage, truthy]
      rw [if_neg (by simpa using h), if_neg (by simp [hinj])]
      rw [sendLine_isOpen _ c _ (by exact hopen)]
      rfl
    refine ⟨by rw [key], ?_, ?_, by rw [key]⟩
    · rw [key]
      exact mapGet_mapSet_self _ _ _
    · intro q hq
      rw [key]
      exact mapGet_mapSet_ne _ _ _ _ hq

section TimerLemmas

/-- Firing the outer receive callback: unconditionally re-asserts
status received, overwrites the received timestamp with the firing
time, emits package_received and schedules the ready callback.  The
rand draw and the errorMode flag are not consulted. -/
theorem fireTimer_receivedT_eq (st : ServerState) (i t : Nat) (rand : Bool)
    (c : Nat) (pid : String) (due : Nat) (p : Package)
    (hi : st.timers[i]? = some (.receivedT c pid due))
    (hd : due ≤ max st.clock t)
    (hp : mapGet st.packages pid = some p)
    (hopen : isOpen st c = true) :
    fireTimerAct st i t rand =
      { st with
        clock := max st.clock t
        timers := st.timers.eraseIdx i ++
          [.readyT c pid (max st.clock t + st.cfg.readyExtraMs)]
        packages := mapSet st.packages pid
          { p with status := .received, tsReceived := some (max st.clock t) }
        out := st.out ++
          [(c, .packageReceived pid p.orderId (max st.clock t))] } := by
  simp only [fireTimerAct]
  rw [hi]
  simp only
  rw [if_neg (by omega)]
  rw [show mapGet ({ st with timers := st.timers.eraseIdx i, clock := max st.clock t } : ServerState).packages pid = some p from hp]
  simp only
  rw [sendLine_isOpen _ c _ (by exact hopen)]

/-- Firing the ready callback under failure injection: the package is
diverted to status error with an error timestamp and an error event. -/
theorem fireTimer_readyT_inject_eq (st : ServerState) (i t : Nat) (rand : Bool)
    (c : Nat) (pid : String) (due : Nat) (p : Package)
    (hi : st.timers[i]? = some (.readyT c pid due))
    (hd : due ≤ max st.clock t)
    (hp : mapGet st.packages pid = some p)
    (hinj : (st.errorMode || rand) = true)
    (hopen : isOpen st c = true) :
    fireTimerAct st i t rand =
      { st with
        clock := max st.clock t
        timers := st.timers.eraseIdx i
        packages := mapSet st.packages pid
          { p with status := .error, tsError := some (max st.clock t) }
        out := st.out ++
          [(c, .err "simulated_processing_error" pid p.orderId)] } := by
  simp only [fireTimerAct]
  rw [hi]
  simp only
  rw [if_neg (by omega)]
  rw [show mapGet ({ st with timers := st.timers.eraseIdx i, clock := max st.clock t } : ServerState).packages pid = some p from hp]
  simp only
  rw [if_pos (by exact hinj)]
  rw [sendLine_isOpen _ c _ (by exact hopen)]

/-- Firing the ready callback with no injected failure: the package
advances to ready_for_loading with a ready timestamp and the
package_ready event. -/
theorem fireTimer_readyT_ok_eq (st : ServerState) (i t : Nat) (rand : Bool)
    (c : Nat) (pid : String) (due : Nat) (p : Package)
    (hi : st.timers[i]? = some (.readyT c pid due))
    (hd : due ≤ max st.clock t)
    (hp : mapGet st.packages pid = some p)
    (hinj : (st.errorMode || rand) = false)
    (hopen : isOpen st c = true) :
    fireTimerAct st i t rand =
      { st with
        clock := max st.clock t
        timers := st.timers.eraseIdx i
        packages := mapSet st.packages pid
          { p with status := .ready_for_loading, tsReady := some (max st.clock t) }
        out := st.out ++
          [(c, .packageReady pid p.orderId (max st.clock t))] } := by
  simp only [fireTimerAct]
  rw [hi]
  simp only
  rw [if_neg (by omega)]
  rw [show mapGet ({ st with timers := st.timers.eraseIdx i, clock := max st.clock t } : ServerState).packages pid = some p from hp]
  simp only
  rw [if_neg (by simp [hinj])]
  rw [sendLine_isOpen _ c _ (by exact hopen)]

/-- Firing the load callback under failure injection: the package is
diverted to status error with an error timestamp and an error event. -/
theorem fireTimer_loadT_inject_eq (st : ServerState) (i t : Nat) (rand : Bool)
    (c : Nat) (pid vid : String) (due : Nat) (p : Package)
    (hi : st.timers[i]? = some (.loadT c pid vid due))
    (hd : due ≤ max st.clock t)
    (hp : mapGet st.packages pid = some p)
    (hinj : (st.errorMode || rand) = true)
    (hopen : isOpen st c = true) :
    fireTimerAct st i t rand =
      { st with
        clock := max st.clock t
        timers := st.timers.eraseIdx i
        packages := mapSet st.packages pid
          { p with status := .error, tsError := some (max st.clock t) }
        out := st.out ++
          [(c, .err "simulated_load_error" pid p.orderId)] } := by
  simp only [fireTimerAct]
  rw [hi]
  simp only
  rw [if_neg (by omega)]
  rw [show mapGet ({ st with timers := st.timers.eraseIdx i, clock := max st.clock t } : ServerState).packages pid = some p from hp]
  simp only
  rw [if_pos (by exact hinj)]
  rw [sendLine_isOpen _ c _ (by exact hopen)]

/-- Firing the load callback with no injected failure: the package
advances to loaded, keeps the resolved vehicle and emits
package_loaded. -/
theorem fireTimer_loadT_ok_eq (st : ServerState) (i t : Nat) (rand : Bool)
    (c : Nat) (pid vid : String) (due : Nat) (p : Package)
    (hi : st.timers[i]? = some (.loadT c pid vid due))
    (hd : due ≤ max st.clock t)
    (hp : mapGet st.packages pid = some p)
    (hinj : (st.errorMode || rand) = false)
    (hopen : isOpen st c = true) :
    fireTimerAct st i t rand =
      { st with
        clock := max st.clock t
        timers := st.timers.eraseIdx i
        packages := mapSet st.packages pid
          { p with status := .loaded, assignedVehicle := vid, tsLoaded := some (max st.clock t) }
        out := st.out ++
          [(c, .packageLoaded pid p.orderId vid (max st.clock t))] } := by
  simp only [fireTimerAct]
  rw [hi]
  simp only
  rw [if_neg (by omega)]
  rw [show mapGet ({ st with timers := st.timers.eraseIdx i, clock := max st.clock t } : ServerState).packages pid = some p from hp]
  simp only
  rw [if_neg (by simp [hinj])]
  rw [sendLine_isOpen _ c _ (by exact hopen)]

end TimerLemmas

/-- C5: with forced-failure mode on, a receive_package carrying an
orderId is rejected with an error event and no state change, and every
firing of a pending ready or load callback diverts its package to
status error with an error event, whatever the random draw is. -/
theorem c5_forced_mode_always_error
    (st : ServerState) (c : Nat) (msg : Msg) (rand : Bool)
    (i t : Nat) (pid : String) (due : Nat) (p : Package)
    (j t2 : Nat) (pid2 vid : String) (due2 : Nat) (p2 : Package)
    (hmode : st.errorMode = true) (hopen : isOpen st c = true) :
    (¬ msg.orderId = "" →
      handleReceivePackage st c msg rand =
        { st with out :=
            st.out ++ [(c, .err "simulated_receive_failure" "" msg.orderId)] }) ∧
    (st.timers[i]? = some (.readyT c pid due) → due ≤ max st.clock t →
      mapGet st.packages pid = some p →
      fireTimerAct st i t rand =
        { st with
          clock := max st.clock t
          timers := st.timers.eraseIdx i
          packages := mapSet st.packages pid
            { p with status := .error, tsError := some (max st.clock t) }
          out := st.out ++
            [(c, .err "simulated_processing_error" pid p.orderId)] }) ∧
    (st.timers[j]? = some (.loadT c pid2 vid due2) → due2 ≤ max st.clock t2 →
      mapGet st.packages pid2 = some p2 →
      fireTimerAct st j t2 rand =
        { st with
          clock := max st.clock t2
          timers := st.timers.eraseIdx j
          packages := mapSet st.packages pid2
            { p2 with status := .error, tsError := some (max st.clock t2) }
          out := st.out ++
            [(c, .err "simulated_load_error" pid2 p2.orderId)] }) := by
  refine ⟨?_, ?_, ?_⟩
  · intro h
    unfold handleReceivePackage truthy
    rw [if_neg (by simpa using h), if_pos (by simp [hmode])]
    exact sendLine_isOpen st c _ hopen
  · intro hi hd hp
    exact fireTimer_readyT_inject_eq st i t rand c pid due p hi hd hp
      (by simp [hmode]) hopen
  · intro hj hd hp
    exact fireTimer_loadT_inject_eq st j t2 rand c pid2 vid due2 p2 hj hd hp
      (by simp [hmode]) hopen

/-- A small stored package used by witness fixtures. -/
def pkgFix : Package :=
  { packageId := "pkg-"
    orderId := "o1"
    status := .received
    tsReceived := some 0 }

/-- Witness fixture: forced mode on, one open connection, one stored
package, a pending ready callback and a pending load callback. -/
def stC5 : ServerState :=
  { errorMode := true
    conns := [(0, {})]
    packages := [("pkg-", pkgFix)]
    timers := [.readyT 0 "pkg-" 5, .loadT 0 "pkg-" "v1" 7] }

theorem c5_forced_mode_always_error_witness :
    stC5.errorMode = true ∧ isOpen stC5 0 = true ∧
    statusOf (fireTimerAct stC5 0 10 false) "pkg-" = some .error ∧
    statusOf (fireTimerAct stC5 1 10 true) "pkg-" = some .error ∧
    handleReceivePackage stC5 0 { type := "receive_package", orderId := "o1" }
      false =
      { stC5 with out :=
          stC5.out ++ [(0, .err "simulated_receive_failure" "" "o1")] } := by
  have h := c5_forced_mode_always_error stC5 0
    { type := "receive_package", orderId := "o1" } false
    0 10 "pkg-" 5 pkgFix 1 10 "pkg-" "v1" 7 pkgFix rfl (by decide)
  have h2 := c5_forced_mode_always_error stC5 0
    { type := "receive_package", orderId := "o1" } true
    0 10 "pkg-" 5 pkgFix 1 10 "pkg-" "v1" 7 pkgFix rfl (by decide)
  refine ⟨rfl, by decide, ?_, ?_, h.1 (by decide)⟩
  · rw [h.2.1 rfl (by decide) (by decide)]
    decide
  · rw [h2.2.2 rfl (by decide) (by decide)]
    decide

/-- The trace refuting C2: a receive is accepted (draw above the
rate), forced mode is then switched on, and the first scheduled
callback fires with the draw below the rate as well. -/
def stC2 : ServerState :=
  run initState
    [.connect 0,
     .msgA 0 0 { type := "receive_package", orderId := "o1" } false,
     .setErrorMode true,
     .fire 0 3000 true]

/-- C2 counterexample: even with forced-failure mode on and the random
draw below the rate, the first scheduled callback of receive_package
still emits package_received and leaves the package in status
received: it never consults failure injection and never diverts to
error. -/
theorem c2_first_callback_ignores_injection_cex :
    stC2.errorMode = true ∧
    statusOf stC2 "pkg-" = some .received ∧
    stC2.out = [(0, .ack "m-A" "pkg-" "o1"),
      (0, .packageReceived "pkg-" "o1" 3000)] := by
  decide

/-- C2 amended: of the two callbacks scheduled by an accepted
receive_package, only the second (package_ready) consults failure
injection and can divert the package to error; the first
(package_received) applies its transition and emits package_received
unconditionally, for every random draw and either errorMode value. -/
theorem c2_only_ready_callback_consults_injection
    (st : ServerState) (i t : Nat) (rand : Bool)
    (c : Nat) (pid : String) (due : Nat) (p : Package)
    (hd : due ≤ max st.clock t)
    (hp : mapGet st.packages pid = some p)
    (hopen : isOpen st c = true) :
    (st.timers[i]? = some (.receivedT c pid due) →
      fireTimerAct st i t rand =
        { st with
          clock := max st.clock t
          timers := st.timers.eraseIdx i ++
            [.readyT c pid (max st.clock t + st.cfg.readyExtraMs)]
          packages := mapSet st.packages pid
            { p with status := .received, tsReceived := some (max st.clock t) }
          out := st.out ++
            [(c, .packageReceived pid p.orderId (max st.clock t))] }) ∧
    (st.timers[i]? = some (.readyT c pid due) →
      (st.errorMode || rand) = true →
      fireTimerAct st i t rand =
        { st with
          clock := max st.clock t
          timers := st.timers.eraseIdx i
          packages := mapSet st.packages pid
            { p with status := .error, tsError := some (max st.clock t) }
          out := st.out ++
            [(c, .err "simulated_processing_error" pid p.orderId)] }) ∧
    (st.timers[i]? = some (.readyT c pid due) →
      (st.errorMode || rand) = false →
      fireTimerAct st i t rand =
        { st with
          clock := max st.clock t
          timers := st.timers.eraseIdx i
          packages := mapSet st.packages pid
            { p with status := .ready_for_loading, tsReady := some (max st.clock t) }
          out := st.out ++
            [(c, .packageReady pid p.orderId (max st.clock t))] }) := by
  refine ⟨?_, ?_, ?_⟩
  · intro hi
    exact fireTimer_receivedT_eq st i t rand c pid due p hi hd hp hopen
  · intro hi hinj
    exact fireTimer_readyT_inject_eq st i t rand c pid due p hi hd hp hinj hopen
  · intro hi hinj
    exact fireTimer_readyT_ok_eq st i t rand c pid due p hi hd hp hinj hopen

/-- Witness fixture: forced mode on, one open connection, one stored
package and a pending first callback. -/
def stC2W : ServerState :=
  { errorMode := true
    conns := [(0, {})]
    packages := [("pkg-", pkgFix)]
    timers := [.receivedT 0 "pkg-" 5] }

theorem c2_only_ready_callback_consults_injection_witness :
    (5 ≤ max stC2W.clock 10) ∧
    mapGet stC2W.packages "pkg-" = some pkgFix ∧
    isOpen stC2W 0 = true ∧
    statusOf (fireTimerAct stC2W 0 10 true) "pkg-" = some .received := by
  have h := c2_only_ready_callback_consults_injection stC2W 0 10 true 0 "pkg-" 5
    pkgFix (by decide) (by decide) (by decide)
  refine ⟨by decide, by decide, by decide, ?_⟩
  rw [h.1 rfl]
  decide

/-- The trace refuting C3: a package is created, forced to error by
simulate_error, then scanned. -/
def stC3pre : ServerState :=
  run initState
    [.connect 0,
     .msgA 0 0 { type := "receive_package", orderId := "o1" } false,
     .msgA 0 1 { type := "simulate_error", packageId := "pkg-" } false]

/-- The same trace continued with the scan command. -/
def stC3 : ServerState :=
  run stC3pre [.msgA 0 2 { type := "scan_package", packageId := "pkg-" } false]

/-- C3 counterexample: after simulate_error the package is in status
error, yet a later scan_package moves it to status scanned — error is
not an absorbing state. -/
theorem c3_error_not_absorbing_cex :
    statusOf stC3pre "pkg-" = some .error ∧
    statusOf stC3 "pkg-" = some .scanned := by
  decide

/-- C3 amended: error is not enforced as terminal.  scan_package never
checks the current status: on an existing package in status error it
still sets status scanned, records a scanned timestamp and emits
package_scanned. -/
theorem c3_scan_overwrites_error
    (st : ServerState) (c : Nat) (msg : Msg) (p : Package)
    (hopen : isOpen st c = true)
    (hpid : ¬ msg.packageId = "")
    (hp : mapGet st.packages msg.packageId = some p)
    (_hstat : p.status = .error) :
    handleScanPackage st c msg =
      { st with
        packages := mapSet st.packages msg.packageId
          { p with status := .scanned, tsScanned := some st.clock }
        out := st.out ++ [(c, .packageScanned p.packageId p.orderId
          (if truthy msg.scanPoint then msg.scanPoint else "unknown")
          st.clock)] } ∧
    statusOf (handleScanPackage st c msg) msg.packageId = some .scanned := by
  have key : handleScanPackage st c msg =
      { st with
        packages := mapSet st.packages msg.packageId
          { p with status := .scanned, tsScanned := some st.clock }
        out := st.out ++ [(c, .packageScanned p.packageId p.orderId
          (if truthy msg.scanPoint then msg.scanPoint else "unknown")
          st.clock)] } := by
    simp only [handleScanPackage, truthy]
    rw [if_neg (by simpa using hpid), hp]
    simp only
    rw [sendLine_isOpen _ c _ (by exact hopen)]
  refine ⟨key, ?_⟩
  rw [key]
  unfold statusOf
  rw [show mapGet (mapSet st.packages msg.packageId
    { p with status := .scanned, tsScanned := some st.clock })
      msg.packageId = some { p with status := .scanned, tsScanned := some st.clock } from mapGet_mapSet_self _ _ _]
  rfl

/-- Witness fixture: one open connection and one errored package. -/
def pkgErrFix : Package :=
  { packageId := "pkg-"
    orderId := "o1"
    status := .error
    tsReceived := some 0
    tsError := some 1 }

def stC3W : ServerState :=
  { conns := [(0, {})]
    packages := [("pkg-", pkgErrFix)] }

theorem c3_scan_overwrites_error_witness :
    isOpen stC3W 0 = true ∧
    statusOf stC3W "pkg-" = some .error ∧
    statusOf (handleScanPackage stC3W 0
      { type := "scan_package", packageId := "pkg-" }) "pkg-" =
      some .scanned := by
  have h := c3_scan_overwrites_error stC3W 0
    { type := "scan_package", packageId := "pkg-" }
    pkgErrFix (by decide) (by decide) (by decide) rfl
  exact ⟨by decide, by decide, h.2⟩

/-- The trace refuting C4: the same connection registers twice with
two different adapter identities. -/
def stC4 : ServerState :=
  run initState
    [.connect 0,
     .msgA 0 0 { type := "register_adapter", adapterId := "a" } false,
     .msgA 0 0 { type := "register_adapter", adapterId := "b" } false]

/-- C4 counterexample: after two register_adapter commands with
different identities on the same connection, the registry holds two
live entries with distinct identities both pointing at socket 0. -/
theorem c4_two_identities_one_socket_cex :
    stC4.adapters = [("a", { socket := 0, capabilities := [], lastSeen := 0 }),
      ("b", { socket := 0, capabilities := [], lastSeen := 0 })] ∧
    ¬ ("a" = "b") := by
  decide

/-- C4 amended: the at-most-one-entry-per-socket invariant only holds
when a connection always registers under one identity: two
register_adapter commands with the same (present) adapterId on the
same connection leave exactly one registry entry, keyed by that
identity and pointing at that socket; distinct identities on one
connection do create two entries sharing the socket. -/
theorem c4_same_identity_single_entry
    (i : String) (c : Nat) (t1 t2 : Nat) (caps1 caps2 : List String)
    (r1 r2 : Bool) (hi : ¬ i = "") :
    ((run initState
      [.connect c,
       .msgA c t1 { type := "register_adapter", adapterId := i, capabilities := caps1 } r1,
       .msgA c t2 { type := "register_adapter", adapterId := i, capabilities := caps2 } r2]).adapters).map
      (fun e => (e.1, e.2.socket)) = [(i, c)] := by
  simp [run, step, initState, handleTcpMessage, handleReceivePackage,
    handleScanPackage, handleLoadPackage, truthy, hi, mapGet, mapSet, mapHas,
    mapAdjust, sendLine, isOpen, List.find?]

theorem c4_same_identity_single_entry_witness :
    ¬ ("a" = "") ∧
    ((run initState
      [.connect 0,
       .msgA 0 0 { type := "register_adapter", adapterId := "a" } false,
       .msgA 0 1 { type := "register_adapter", adapterId := "a" } false]).adapters).map
      (fun e => (e.1, e.2.socket)) = [("a", 0)] :=
  ⟨by decide, c4_same_identity_single_entry "a" 0 0 1 [] [] false false
    (by decide)⟩

/-- Witness fixture: one open connection, empty stores. -/
def stOpen0 : ServerState := { conns := [(0, {})] }

theorem c6_receive_rejections_leave_store_unchanged_witness :
    isOpen stOpen0 0 = true ∧
    handleReceivePackage stOpen0 0 { type := "receive_package" } false =
      { stOpen0 with out := stOpen0.out ++ [(0, .err "missing_orderId" "" "")] } ∧
    handleReceivePackage stOpen0 0
      { type := "receive_package", orderId := "o1" } true =
      { stOpen0 with out := stOpen0.out ++
          [(0, .err "simulated_receive_failure" "" "o1")] } := by
  have h1 := c6_receive_rejections_leave_store_unchanged stOpen0 0
    { type := "receive_package" } false (by decide)
  have h2 := c6_receive_rejections_leave_store_unchanged stOpen0 0
    { type := "receive_package", orderId := "o1" } true (by decide)
  exact ⟨by decide, h1.1 rfl, h2.2.1 (by decide) (by decide)⟩

/-- C7: registering the same identity first on connection c1 and then
on connection c2 leaves the registry mapping the identity to c2 only;
afterwards a directed send delivers exactly one copy, to c2, and a
broadcast likewise delivers exactly one copy, to c2 — nothing reaches
c1. -/
theorem c7_same_identity_two_connections
    (i : String) (c1 c2 : Nat) (t1 t2 : Nat) (r1 r2 : Bool) (obj : OutMsg)
    (hi : ¬ i = "") (hc : ¬ c1 = c2) :
    ((run initState
      [.connect c1, .connect c2,
       .msgA c1 t1 { type := "register_adapter", adapterId := i } r1,
       .msgA c2 t2 { type := "register_adapter", adapterId := i } r2]).adapters).map
        (fun e => (e.1, e.2.socket)) = [(i, c2)] ∧
    (sendToAdapterById (run initState
      [.connect c1, .connect c2,
       .msgA c1 t1 { type := "register_adapter", adapterId := i } r1,
       .msgA c2 t2 { type := "register_adapter", adapterId := i } r2]) i obj).out =
      (run initState
      [.connect c1, .connect c2,
       .msgA c1 t1 { type := "register_adapter", adapterId := i } r1,
       .msgA c2 t2 { type := "register_adapter", adapterId := i } r2]).out ++
        [(c2, obj)] ∧
    (broadcastToAdapters (run initState
      [.connect c1, .connect c2,
       .msgA c1 t1 { type := "register_adapter", adapterId := i } r1,
       .msgA c2 t2 { type := "register_adapter", adapterId := i } r2]) obj).out =
      (run initState
      [.connect c1, .connect c2,
       .msgA c1 t1 { type := "register_adapter", adapterId := i } r1,
       .msgA c2 t2 { type := "register_adapter", adapterId := i } r2]).out ++
        [(c2, obj)] := by
  have hc' : ¬ c2 = c1 := fun h => hc h.symm
  refine ⟨?_, ?_, ?_⟩ <;>
    simp [run, step, handleTcpMessage, truthy, hi, hc, hc', mapGet, mapSet,
      mapHas, mapAdjust, sendLine, sendToAdapterById, broadcastToAdapters,
      isOpen, initState, List.find?]

theorem c7_same_identity_two_connections_witness :
    ¬ ("a" = "") ∧ ¬ ((1 : Nat) = 2) ∧
    ((run initState
      [.connect 1, .connect 2,
       .msgA 1 0 { type := "register_adapter", adapterId := "a" } false,
       .msgA 2 0 { type := "register_adapter", adapterId := "a" } false]).adapters).map
        (fun e => (e.1, e.2.socket)) = [("a", 2)] :=
  ⟨by decide, by decide,
    (c7_same_identity_two_connections "a" 1 2 0 0 false false
      (.err "x" "" "") (by decide) (by decide)).1⟩

/-- C9: after identity X moves from c1 to c2 by re-registration, the
close of c1 still runs with the closure variable X and deletes the
entry stored under X — which then points at c2 — leaving X absent and
unreachable for directed send and broadcast although c2 is open. -/
theorem c9_close_of_old_connection_orphans_identity
    (X : String) (c1 c2 : Nat) (t1 t2 t3 : Nat) (r1 r2 : Bool) (obj : OutMsg)
    (hX : ¬ X = "") (hc : ¬ c1 = c2) :
    (run initState
      [.connect c1, .connect c2,
       .msgA c1 t1 { type := "register_adapter", adapterId := X } r1,
       .msgA c2 t2 { type := "register_adapter", adapterId := X } r2,
       .close c1 t3]).adapters = [] ∧
    mapGet (run initState
      [.connect c1, .connect c2,
       .msgA c1 t1 { type := "register_adapter", adapterId := X } r1,
       .msgA c2 t2 { type := "register_adapter", adapterId := X } r2,
       .close c1 t3]).conns c2 = some { adapterId := X, closed := false } ∧
    sendToAdapterById (run initState
      [.connect c1, .connect c2,
       .msgA c1 t1 { type := "register_adapter", adapterId := X } r1,
       .msgA c2 t2 { type := "register_adapter", adapterId := X } r2,
       .close c1 t3]) X obj =
      run initState
      [.connect c1, .connect c2,
       .msgA c1 t1 { type := "register_adapter", adapterId := X } r1,
       .msgA c2 t2 { type := "register_adapter", adapterId := X } r2,
       .close c1 t3] ∧
    broadcastToAdapters (run initState
      [.connect c1, .connect c2,
       .msgA c1 t1 { type := "register_adapter", adapterId := X } r1,
       .msgA c2 t2 { type := "register_adapter", adapterId := X } r2,
       .close c1 t3]) obj =
      run initState
      [.connect c1, .connect c2,
       .msgA c1 t1 { type := "register_adapter", adapterId := X } r1,
       .msgA c2 t2 { type := "register_adapter", adapterId := X } r2,
       .close c1 t3] := by
  have hc' : ¬ c2 = c1 := fun h => hc h.symm
  refine ⟨?_, ?_, ?_, ?_⟩ <;>
    simp [run, step, handleTcpMessage, truthy, hX, hc, hc', mapGet, mapSet,
      mapHas, mapAdjust, mapDelete, sendLine, sendToAdapterById,
      broadcastToAdapters, isOpen, initState, List.find?]

theorem c9_close_of_old_connection_orphans_identity_witness :
    ¬ ("a" = "") ∧ ¬ ((1 : Nat) = 2) ∧
    (run initState
      [.connect 1, .connect 2,
       .msgA 1 0 { type := "register_adapter", adapterId := "a" } false,
       .msgA 2 0 { type := "register_adapter", adapterId := "a" } false,
       .close 1 0]).adapters = [] :=
  ⟨by decide, by decide,
    (c9_close_of_old_connection_orphans_identity "a" 1 2 0 0 0 false false
      (.err "x" "" "") (by decide) (by decide)).1⟩

theorem mapHas_of_mapGet {K V : Type} [DecidableEq K] (l : List (K × V))
    (k : K) (v : V) (h : mapGet l k = some v) : mapHas l k = true := by
  unfold mapGet at h
  cases hf : l.find? (fun e => decide (e.1 = k)) with
  | none => rw [hf] at h; simp at h
  | some e =>
    have hmem := List.mem_of_find?_eq_some hf
    have hpred := List.find?_some hf
    unfold mapHas
    rw [List.any_eq_true]
    exact ⟨e, hmem, hpred⟩

/-- Broadcast over a registry whose sockets are all open appends one
line per entry, in registry order, and changes nothing else. -/
theorem broadcast_out_of_open (l : List (String × AdapterEntry))
    (st : ServerState) (m : OutMsg)
    (h : ∀ e ∈ l, isOpen st e.2.socket = true) :
    l.foldl (fun s e => sendLine s e.2.socket m) st =
      { st with out := st.out ++ l.map (fun e => (e.2.socket, m)) } := by
  induction l generalizing st with
  | nil => simp
  | cons e l ih =>
    rw [List.foldl_cons,
      sendLine_isOpen st e.2.socket m (h e (List.mem_cons_self e l)),
      ih { st with out := st.out ++ [(e.2.socket, m)] }
        (fun e' he' => by exact h e' (List.mem_cons_of_mem _ he'))]
    simp

/-- Broadcast over a registry whose sockets are all open, stated on
broadcastToAdapters itself. -/
theorem broadcastToAdapters_open_eq (st : ServerState) (m : OutMsg)
    (h : ∀ e ∈ st.adapters, isOpen st e.2.socket = true) :
    broadcastToAdapters st m =
      { st with out := st.out ++ st.adapters.map (fun e => (e.2.socket, m)) } := by
  unfold broadcastToAdapters
  exact broadcast_out_of_open st.adapters st m h

/-- Deliveries to one socket among those produced by a simulate_error:
the direct line plus the per-entry broadcast lines. -/
theorem countTo_broadcast_targets (l : List (String × AdapterEntry))
    (m : OutMsg) (s : Nat) :
    countTo (l.map (fun e => (e.2.socket, m))) s =
      (l.filter (fun e => e.2.socket = s)).length := by
  induction l with
  | nil => rfl
  | cons e l ih =>
    by_cases he : e.2.socket = s
    · simp [countTo, List.filter, he] at ih ⊢
      exact ih
    · simp [countTo, List.filter, he] at ih ⊢
      exact ih

/-- C10: a simulate_error on an existing package, issued from an open
connection that hosts exactly one registered adapter (and with every
registered adapter on its own open connection), delivers the error
event twice to the issuing connection — once directly and once via the
broadcast — and exactly once to every other registered adapter. -/
theorem c10_simulate_error_double_delivery
    (st : ServerState) (c : Nat) (msg : Msg) (rand : Bool) (p : Package)
    (a0 : String) (e0 : AdapterEntry)
    (hty : msg.type = "simulate_error")
    (hpid : ¬ msg.packageId = "")
    (hp : mapGet st.packages msg.packageId = some p)
    (hopen : isOpen st c = true)
    (hall : ∀ e ∈ st.adapters, isOpen st e.2.socket = true)
    (horig : st.adapters.filter (fun e => e.2.socket = c) = [(a0, e0)])
    (hother : ∀ e ∈ st.adapters, ¬ e.2.socket = c →
      (st.adapters.filter (fun e2 => e2.2.socket = e.2.socket)).length = 1) :
    ((handleTcpMessage st c msg rand).out = st.out ++
      ((c, OutMsg.err (if truthy msg.error then msg.error else "simulated_error")
          msg.packageId "") ::
        st.adapters.map (fun e => (e.2.socket,
          OutMsg.err (if truthy msg.error then msg.error else "simulated_error")
            msg.packageId "")))) ∧
    countTo ((c, OutMsg.err (if truthy msg.error then msg.error else "simulated_error")
        msg.packageId "") ::
      st.adapters.map (fun e => (e.2.socket,
        OutMsg.err (if truthy msg.error then msg.error else "simulated_error")
          msg.packageId ""))) c = 2 ∧
    (∀ e ∈ st.adapters, ¬ e.2.socket = c →
      countTo ((c, OutMsg.err (if truthy msg.error then msg.error else "simulated_error")
          msg.packageId "") ::
        st.adapters.map (fun e2 => (e2.2.socket,
          OutMsg.err (if truthy msg.error then msg.error else "simulated_error")
            msg.packageId ""))) e.2.socket = 1) := by
  have hhas : mapHas st.packages msg.packageId = true :=
    mapHas_of_mapGet _ _ _ hp
  have key : handleTcpMessage st c msg rand =
      { st with
        packages := mapSet st.packages msg.packageId
          { p with status := .error, tsError := some st.clock }
        out := (st.out ++
          [(c, OutMsg.err (if truthy msg.error then msg.error else "simulated_error")
            msg.packageId "")]) ++
          st.adapters.map (fun e => (e.2.socket,
            OutMsg.err (if truthy msg.error then msg.error else "simulated_error")
              msg.packageId "")) } := by
    simp [handleTcpMessage, hty, hpid, hhas, hp, truthy]
    rw [sendLine_isOpen _ c _ (by exact hopen)]
    rw [broadcastToAdapters_open_eq _ _ (fun e he => by exact hall e he)]
    simp
  refine ⟨by rw [key]; simp, ?_, ?_⟩
  · show countTo _ c = 2
    unfold countTo
    rw [List.filter_cons_of_pos (by simp)]
    have := countTo_broadcast_targets st.adapters
      (OutMsg.err (if truthy msg.error then msg.error else "simulated_error")
        msg.packageId "") c
    unfold countTo at this
    rw [List.length_cons, this, horig]
    rfl
  · intro e he hec
    unfold countTo
    rw [List.filter_cons_of_neg (by simpa using fun h => hec h.symm)]
    have := countTo_broadcast_targets st.adapters
      (OutMsg.err (if truthy msg.error then msg.error else "simulated_error")
        msg.packageId "") e.2.socket
    unfold countTo at this
    rw [this]
    exact hother e he hec

/-- Witness fixture for the delivery-count claim: adapters a on socket
1 and b on socket 2, both open, one stored package. -/
def stC10 : ServerState :=
  { conns := [(1, { adapterId := "a" }), (2, { adapterId := "b" })]
    adapters := [("a", { socket := 1 }), ("b", { socket := 2 })]
    packages := [("pkg-", pkgFix)] }

theorem c10_simulate_error_double_delivery_witness :
    isOpen stC10 1 = true ∧
    (∀ e ∈ stC10.adapters, isOpen stC10 e.2.socket = true) ∧
    countTo ((1, OutMsg.err "simulated_error" "pkg-" "") ::
      stC10.adapters.map (fun e =>
        (e.2.socket, OutMsg.err "simulated_error" "pkg-" ""))) 1 = 2 ∧
    countTo ((1, OutMsg.err "simulated_error" "pkg-" "") ::
      stC10.adapters.map (fun e2 =>
        (e2.2.socket, OutMsg.err "simulated_error" "pkg-" ""))) 2 = 1 := by
  have h := c10_simulate_error_double_delivery stC10 1
    { type := "simulate_error", packageId := "pkg-" } false pkgFix
    "a" { socket := 1 }
    rfl (by decide) (by decide) (by decide) (by decide) (by decide) (by decide)
  refine ⟨by decide, by decide, by exact h.2.1, ?_⟩
  have h3 := h.2.2 ("b", { socket := 2 }) (by simp [stC10]) (by decide)
  exact h3

/-- Openness as a function of the connection table alone. -/
def isOpenC (l : List (Nat × ConnSt)) (c : Nat) : Bool :=
  match mapGet l c with
  | none => false
  | some cs => ¬ cs.closed

theorem isOpen_eq_isOpenC (st : ServerState) (c : Nat) :
    isOpen st c = isOpenC st.conns c := rfl

/-- Rebinding the closure adapterId never closes a socket. -/
theorem isOpenC_adjust_adapterId (l : List (Nat × ConnSt)) (k : Nat)
    (aid : String) (c' : Nat) :
    isOpenC (mapAdjust l k (fun cs => { cs with adapterId := aid })) c' =
      isOpenC l c' := by
  unfold isOpenC
  by_cases h : c' = k
  · subst h
    rw [mapGet_mapAdjust_self]
    cases mapGet l c' with
    | none => rfl
    | some cs => rfl
  · rw [mapGet_mapAdjust_ne _ _ _ _ h]

theorem conns_foldl_sendLine (l : List (String × AdapterEntry))
    (st : ServerState) (m : OutMsg) :
    (l.foldl (fun s e => sendLine s e.2.socket m) st).conns = st.conns := by
  induction l generalizing st with
  | nil => rfl
  | cons e l ih =>
    rw [List.foldl_cons, ih (sendLine st e.2.socket m), sendLine_conns]

theorem conns_broadcastToAdapters (st : ServerState) (m : OutMsg) :
    (broadcastToAdapters st m).conns = st.conns := by
  unfold broadcastToAdapters
  exact conns_foldl_sendLine _ _ _

theorem conns_handleReceivePackage (st : ServerState) (c : Nat) (msg : Msg)
    (rand : Bool) :
    (handleReceivePackage st c msg rand).conns = st.conns := by
  simp only [handleReceivePackage]
  split
  · exact sendLine_conns _ _ _
  · split
    · exact sendLine_conns _ _ _
    · exact sendLine_conns _ _ _

theorem conns_handleScanPackage (st : ServerState) (c : Nat) (msg : Msg) :
    (handleScanPackage st c msg).conns = st.conns := by
  simp only [handleScanPackage]
  split
  · exact sendLine_conns _ _ _
  · split
    · exact sendLine_conns _ _ _
    · exact sendLine_conns _ _ _

theorem conns_handleLoadPackage (st : ServerState) (c : Nat) (msg : Msg) :
    (handleLoadPackage st c msg).conns = st.conns := by
  simp only [handleLoadPackage]
  split
  · exact sendLine_conns _ _ _
  · split
    · exact sendLine_conns _ _ _
    · split <;> rfl

/-- No inbound message ever closes a socket: the dispatcher only
appends output and, on register, rebinds the closure adapterId. -/
theorem isOpen_handleTcpMessage (st : ServerState) (c : Nat) (msg : Msg)
    (rand : Bool) (c' : Nat) :
    isOpen (handleTcpMessage st c msg rand) c' = isOpen st c' := by
  have hsend : ∀ (s : ServerState) (cc : Nat) (m : OutMsg),
      isOpen (sendLine s cc m) c' = isOpenC s.conns c' := by
    intro s cc m
    rw [isOpen_eq_isOpenC, sendLine_conns]
  simp only [handleTcpMessage]
  split
  · exact hsend st c _
  · split
    · rw [hsend]
      by_cases hb : truthy msg.adapterId = true <;>
        simp [hb, isOpenC_adjust_adapterId, isOpen_eq_isOpenC]
    · split
      · rw [isOpen_eq_isOpenC, conns_handleReceivePackage]
        rfl
      · split
        · rw [isOpen_eq_isOpenC, conns_handleScanPackage]
          rfl
        · split
          · rw [isOpen_eq_isOpenC, conns_handleLoadPackage]
            rfl
          · split
            · split
              · split
                · rfl
                · rw [isOpen_eq_isOpenC, conns_broadcastToAdapters,
                    sendLine_conns]
                  rfl
              · exact hsend st c _
            · exact hsend st c _

theorem isOpen_processLine (parse : String → Option Msg) (st : ServerState)
    (c : Nat) (line : String) (r : Bool) (c' : Nat) :
    isOpen (processLine parse st c line r) c' = isOpen st c' := by
  simp only [processLine]
  split
  · rfl
  · split
    · rw [isOpen_eq_isOpenC, sendLine_conns]
      rfl
    · exact isOpen_handleTcpMessage st c _ r c'

theorem isOpen_processLines (parse : String → Option Msg) (st : ServerState)
    (c : Nat) (ls : List (String × Bool)) (c' : Nat) :
    isOpen (processLines parse st c ls) c' = isOpen st c' := by
  induction ls generalizing st with
  | nil => rfl
  | cons l ls ih =>
    unfold processLines at ih ⊢
    rw [List.foldl_cons, ih, isOpen_processLine]

/-- C8: a line of the buffer that fails JSON decoding produces exactly
one invalid_json error line back on the same (still open) connection,
changes no package, adapter, connection or timer state, and the lines
after it in the buffer are processed exactly as they would have been:
processing the whole buffer equals processing the prefix, emitting the
one error, then processing the suffix. -/
theorem c8_malformed_line_isolated
    (parse : String → Option Msg) (st : ServerState) (c : Nat)
    (bad : String) (rb : Bool) (pres posts : List String)
    (rpre rpost : List Bool) (hlen : rpre.length = pres.length)
    (hbad : parse (trimString bad) = none) (hne : ¬ trimString bad = "")
    (hopen : isOpen st c = true) :
    isOpen (processLines parse st c (pres.zip rpre)) c = true ∧
    processLine parse (processLines parse st c (pres.zip rpre)) c bad rb =
      { processLines parse st c (pres.zip rpre) with
        out := (processLines parse st c (pres.zip rpre)).out ++
          [(c, .err "invalid_json" "" "")] } ∧
    processLines parse st c
        (pres.zip rpre ++ (bad, rb) :: posts.zip rpost) =
      processLines parse
        (processLine parse (processLines parse st c (pres.zip rpre)) c bad rb)
        c (posts.zip rpost) ∧
    (∀ buffer chunk : String,
      (extractLines (buffer ++ chunk)).1 = pres ++ bad :: posts →
      (onData parse st c buffer chunk (rpre ++ rb :: rpost)).1 =
        processLines parse
          (processLine parse (processLines parse st c (pres.zip rpre)) c bad rb)
          c (posts.zip rpost)) := by
  have hpo : isOpen (processLines parse st c (pres.zip rpre)) c = true := by
    rw [isOpen_processLines]
    exact hopen
  have hsplit : processLines parse st c
      (pres.zip rpre ++ (bad, rb) :: posts.zip rpost) =
    processLines parse
      (processLine parse (processLines parse st c (pres.zip rpre)) c bad rb)
      c (posts.zip rpost) := by
    unfold processLines
    rw [List.foldl_append, List.foldl_cons]
  refine ⟨hpo, ?_, hsplit, ?_⟩
  · simp only [processLine]
    rw [if_neg (by simpa using hne), hbad]
    exact sendLine_isOpen _ c _ hpo
  · intro buffer chunk hext
    unfold onData
    rw [hext, List.zip_append (show pres.length = rpre.length from hlen.symm)]
    exact hsplit

/-- Witness decoder: rejects every line. -/
def parseNone : String → Option Msg := fun _ => none

theorem c8_malformed_line_isolated_witness :
    parseNone (trimString "oops") = none ∧ ¬ (trimString "oops" = "") ∧
    isOpen stOpen0 0 = true ∧
    (extractLines ("" ++ "ab\noops\ncd\n")).1 = ["ab"] ++ "oops" :: ["cd"] ∧
    processLine parseNone (processLines parseNone stOpen0 0
        (["ab"].zip [true])) 0 "oops" false =
      { processLines parseNone stOpen0 0 (["ab"].zip [true]) with
        out := (processLines parseNone stOpen0 0 (["ab"].zip [true])).out ++
          [(0, .err "invalid_json" "" "")] } ∧
    (onData parseNone stOpen0 0 "" "ab\noops\ncd\n" [true, false, true]).1 =
      processLines parseNone
        (processLine parseNone (processLines parseNone stOpen0 0
          (["ab"].zip [true])) 0 "oops" false) 0 (["cd"].zip [true]) := by
  have h := c8_malformed_line_isolated parseNone stOpen0 0 "oops" false
    ["ab"] ["cd"] [true] [true] rfl rfl (by decide) (by decide)
  exact ⟨rfl, by decide, by decide, by decide, h.2.1,
    h.2.2.2 "" "ab\noops\ncd\n" (by decide)⟩

/-- The fresh-fragment generator is injective (uuid freshness). -/
theorem idTag_inj (m n : Nat) (h : idTag m = idTag n) : m = n := by
  unfold idTag at h
  have hd : List.replicate m 'A' = List.replicate n 'A' := by
    injection h
  have := congrArg List.length hd
  simpa using this

theorem makePackageId_inj (m n : Nat) (h : makePackageId m = makePackageId n) :
    m = n := by
  unfold makePackageId at h
  apply idTag_inj
  have hd : ("pkg-" ++ idTag m).data = ("pkg-" ++ idTag n).data := by rw [h]
  rw [String.data_append, String.data_append] at hd
  have := List.append_cancel_left hd
  cases hm : idTag m with
  | mk dm =>
    cases hn : idTag n with
    | mk dn =>
      rw [hm, hn] at this
      simp at this
      rw [this]

theorem mapGet_mem {K V : Type} [DecidableEq K] (l : List (K × V)) (k : K)
    (v : V) (h : mapGet l k = some v) : (k, v) ∈ l := by
  unfold mapGet at h
  cases hf : l.find? (fun e => decide (e.1 = k)) with
  | none => rw [hf] at h; simp at h
  | some e =>
    rw [hf] at h
    have hmem := List.mem_of_find?_eq_some hf
    have hpred : e.1 = k := by simpa using List.find?_some hf
    have hv : e.2 = v := by simpa using h
    have : e = (k, v) := by
      cases e
      simp_all
    rw [this] at hmem
    exact hmem

theorem mem_mapSet {K V : Type} [DecidableEq K] (l : List (K × V)) (k : K)
    (v : V) (e : K × V) (h : e ∈ mapSet l k v) : e ∈ l ∨ e = (k, v) := by
  unfold mapSet at h
  by_cases hh : mapHas l k = true
  · rw [if_pos hh] at h
    obtain ⟨x, hx, hxe⟩ := List.mem_map.1 h
    by_cases hx1 : x.1 = k
    · right
      rw [if_pos hx1] at hxe
      exact hxe.symm
    · left
      rw [if_neg hx1] at hxe
      exact hxe ▸ hx
  · rw [if_neg hh] at h
    rcases List.mem_append.1 h with h1 | h1
    · exact Or.inl h1
    · exact Or.inr (by simpa using h1)

theorem packages_foldl_sendLine (l : List (String × AdapterEntry))
    (st : ServerState) (m : OutMsg) :
    (l.foldl (fun s e => sendLine s e.2.socket m) st).packages = st.packages := by
  induction l generalizing st with
  | nil => rfl
  | cons e l ih =>
    rw [List.foldl_cons, ih (sendLine st e.2.socket m), sendLine_packages]

theorem clock_foldl_sendLine (l : List (String × AdapterEntry))
    (st : ServerState) (m : OutMsg) :
    (l.foldl (fun s e => sendLine s e.2.socket m) st).clock = st.clock := by
  induction l generalizing st with
  | nil => rfl
  | cons e l ih =>
    rw [List.foldl_cons, ih (sendLine st e.2.socket m), sendLine_clock]

theorem sendLine_nextId (st : ServerState) (c : Nat) (m : OutMsg) :
    (sendLine st c m).nextId = st.nextId := by
  rcases sendLine_eq st c m with h | h <;> rw [h]

theorem nextId_foldl_sendLine (l : List (String × AdapterEntry))
    (st : ServerState) (m : OutMsg) :
    (l.foldl (fun s e => sendLine s e.2.socket m) st).nextId = st.nextId := by
  induction l generalizing st with
  | nil => rfl
  | cons e l ih =>
    rw [List.foldl_cons, ih (sendLine st e.2.socket m), sendLine_nextId]

/-- No package_received callback for this package is still pending. -/
def noPendingReceivedT (st : ServerState) (pid : String) : Bool :=
  st.timers.all (fun tm =>
    match tm with
    | .receivedT _ q _ => ¬ q = pid
    | .readyT _ _ _ => true
    | .loadT _ _ _ _ => true)

/-- Every timestamp field of the updated entry is either the old value
or the moment of the update. -/
def FieldUpd (pq p1 : Package) (cl : Nat) : Prop :=
  (p1.tsReceived = pq.tsReceived ∨ p1.tsReceived = some cl) ∧
  (p1.tsReady = pq.tsReady ∨ p1.tsReady = some cl) ∧
  (p1.tsScanned = pq.tsScanned ∨ p1.tsScanned = some cl) ∧
  (p1.tsLoaded = pq.tsLoaded ∨ p1.tsLoaded = some cl) ∧
  (p1.tsError = pq.tsError ∨ p1.tsError = some cl)

theorem packages_broadcastToAdapters (st : ServerState) (m : OutMsg) :
    (broadcastToAdapters st m).packages = st.packages := by
  unfold broadcastToAdapters
  exact packages_foldl_sendLine _ _ _

theorem clock_broadcastToAdapters (st : ServerState) (m : OutMsg) :
    (broadcastToAdapters st m).clock = st.clock := by
  unfold broadcastToAdapters
  exact clock_foldl_sendLine _ _ _

theorem nextId_broadcastToAdapters (st : ServerState) (m : OutMsg) :
    (broadcastToAdapters st m).nextId = st.nextId := by
  unfold broadcastToAdapters
  exact nextId_foldl_sendLine _ _ _

/-- How handleReceivePackage can change the package store: not at all,
or by storing one fresh entry whose only timestamp is received := now,
strictly advancing the id counter; the clock never moves. -/
theorem handleReceivePackage_facts (st : ServerState) (c : Nat) (msg : Msg)
    (rand : Bool) :
    (handleReceivePackage st c msg rand).clock = st.clock ∧
    st.nextId ≤ (handleReceivePackage st c msg rand).nextId ∧
    ((handleReceivePackage st c msg rand).packages = st.packages ∨
     (∃ pnew, (handleReceivePackage st c msg rand).packages =
        mapSet st.packages (makePackageId st.nextId) pnew ∧
        st.nextId < (handleReceivePackage st c msg rand).nextId ∧
        pnew.tsReceived = some st.clock ∧ pnew.tsReady = none ∧
        pnew.tsScanned = none ∧ pnew.tsLoaded = none ∧ pnew.tsError = none)) := by
  by_cases h1 : truthy msg.orderId = true
  · by_cases h2 : (st.errorMode || rand) = true
    · have key : handleReceivePackage st c msg rand =
          sendLine st c (.err "simulated_receive_failure" "" msg.orderId) := by
        simp only [handleReceivePackage]
        rw [if_neg (by simpa using h1), if_pos h2]
      rw [key]
      exact ⟨sendLine_clock _ _ _, le_of_eq (sendLine_nextId _ _ _).symm,
        Or.inl (sendLine_packages _ _ _)⟩
    · have keyC : (handleReceivePackage st c msg rand).clock = st.clock := by
        simp only [handleReceivePackage]
        rw [if_neg (by simpa using h1), if_neg (by simpa using h2)]
        exact sendLine_clock _ _ _
      have keyN : (handleReceivePackage st c msg rand).nextId =
          st.nextId + 2 := by
        simp only [handleReceivePackage]
        rw [if_neg (by simpa using h1), if_neg (by simpa using h2)]
        exact sendLine_nextId _ _ _
      have keyP : (handleReceivePackage st c msg rand).packages =
          mapSet st.packages (makePackageId st.nextId) (newPackage st msg) := by
        simp only [handleReceivePackage]
        rw [if_neg (by simpa using h1), if_neg (by simpa using h2)]
        exact sendLine_packages _ _ _
      refine ⟨keyC, by omega, Or.inr ⟨newPackage st msg, keyP, by omega,
        rfl, rfl, rfl, rfl, rfl⟩⟩
  · have key : handleReceivePackage st c msg rand =
        sendLine st c (.err "missing_orderId" "" "") := by
      simp only [handleReceivePackage]
      rw [if_pos (by simpa using h1)]
    rw [key]
    exact ⟨sendLine_clock _ _ _, le_of_eq (sendLine_nextId _ _ _).symm,
      Or.inl (sendLine_packages _ _ _)⟩

/-- How handleScanPackage can change the package store: not at all, or
by overwriting one existing entry with status scanned and a scanned
timestamp taken now; counter and clock untouched. -/
theorem handleScanPackage_facts (st : ServerState) (c : Nat) (msg : Msg) :
    (handleScanPackage st c msg).clock = st.clock ∧
    (handleScanPackage st c msg).nextId = st.nextId ∧
    ((handleScanPackage st c msg).packages = st.packages ∨
     (∃ q pq p1, mapGet st.packages q = some pq ∧
        (handleScanPackage st c msg).packages = mapSet st.packages q p1 ∧
        FieldUpd pq p1 st.clock ∧ p1.tsReceived = pq.tsReceived)) := by
  by_cases h1 : truthy msg.packageId = true
  · cases hq : mapGet st.packages msg.packageId with
    | none =>
      have key : handleScanPackage st c msg =
          sendLine st c (.err "package_not_found" "" "") := by
        simp only [handleScanPackage]
        rw [if_neg (by simpa using h1), hq]
      rw [key]
      exact ⟨sendLine_clock _ _ _, sendLine_nextId _ _ _,
        Or.inl (sendLine_packages _ _ _)⟩
    | some pq =>
      have keyC : (handleScanPackage st c msg).clock = st.clock := by
        simp only [handleScanPackage]
        rw [if_neg (by simpa using h1), hq]
        exact sendLine_clock _ _ _
      have keyN : (handleScanPackage st c msg).nextId = st.nextId := by
        simp only [handleScanPackage]
        rw [if_neg (by simpa using h1), hq]
        exact sendLine_nextId _ _ _
      have keyP : (handleScanPackage st c msg).packages =
          mapSet st.packages msg.packageId
            { pq with status := .scanned, tsScanned := some st.clock } := by
        simp only [handleScanPackage]
        rw [if_neg (by simpa using h1), hq]
        exact sendLine_packages _ _ _
      exact ⟨keyC, keyN, Or.inr ⟨msg.packageId, pq,
        { pq with status := .scanned, tsScanned := some st.clock }, hq, keyP,
        ⟨Or.inl rfl, Or.inl rfl, Or.inr rfl, Or.inl rfl, Or.inl rfl⟩, rfl⟩⟩
  · have key : handleScanPackage st c msg =
        sendLine st c (.err "missing_packageId" "" "") := by
      simp only [handleScanPackage]
      rw [if_pos (by simpa using h1)]
    rw [key]
    exact ⟨sendLine_clock _ _ _, sendLine_nextId _ _ _,
      Or.inl (sendLine_packages _ _ _)⟩

/-- handleLoadPackage never touches the package store or the clock; it
may advance the id counter when it generates a vehicle id. -/
theorem handleLoadPackage_facts (st : ServerState) (c : Nat) (msg : Msg) :
    (handleLoadPackage st c msg).clock = st.clock ∧
    st.nextId ≤ (handleLoadPackage st c msg).nextId ∧
    (handleLoadPackage st c msg).packages = st.packages := by
  by_cases h1 : truthy msg.packageId = true
  · cases hq : mapGet st.packages msg.packageId with
    | none =>
      have key : handleLoadPackage st c msg =
          sendLine st c (.err "package_not_found" "" "") := by
        simp only [handleLoadPackage]
        rw [if_neg (by simpa using h1), hq]
      rw [key]
      exact ⟨sendLine_clock _ _ _, le_of_eq (sendLine_nextId _ _ _).symm,
        sendLine_packages _ _ _⟩
    | some pq =>
      by_cases h2 : truthy msg.vehicleId = true
      · have key : handleLoadPackage st c msg =
            { st with timers := st.timers ++
              [.loadT c msg.packageId msg.vehicleId
                (st.clock + st.cfg.loadDelayMs)] } := by
          simp only [handleLoadPackage]
          rw [if_neg (by simpa using h1), hq]
          simp [h2]
        rw [key]
        exact ⟨rfl, le_refl _, rfl⟩
      · have key : handleLoadPackage st c msg =
            { st with
              nextId := st.nextId + 1
              timers := st.timers ++
                [.loadT c msg.packageId ("v-" ++ idTag st.nextId)
                  (st.clock + st.cfg.loadDelayMs)] } := by
          simp only [handleLoadPackage]
          rw [if_neg (by simpa using h1), hq]
          simp [h2]
        rw [key]
        exact ⟨rfl, by show st.nextId ≤ st.nextId + 1; omega, rfl⟩
  · have key : handleLoadPackage st c msg =
        sendLine st c (.err "missing_packageId" "" "") := by
      simp only [handleLoadPackage]
      rw [if_pos (by simpa using h1)]
    rw [key]
    exact ⟨sendLine_clock _ _ _, le_of_eq (sendLine_nextId _ _ _).symm,
      sendLine_packages _ _ _⟩

/-- How one dispatched message can change the package store: not at
all; one fresh entry from an accepted receive; or one existing entry
overwritten with timestamps taken now and the received timestamp kept.
The clock is never moved by a handler and the id counter never goes
backwards. -/
theorem handleTcpMessage_facts (st : ServerState) (c : Nat) (msg : Msg)
    (rand : Bool) :
    (handleTcpMessage st c msg rand).clock = st.clock ∧
    st.nextId ≤ (handleTcpMessage st c msg rand).nextId ∧
    ((handleTcpMessage st c msg rand).packages = st.packages ∨
     (∃ pnew, (handleTcpMessage st c msg rand).packages =
        mapSet st.packages (makePackageId st.nextId) pnew ∧
        st.nextId < (handleTcpMessage st c msg rand).nextId ∧
        pnew.tsReceived = some st.clock ∧ pnew.tsReady = none ∧
        pnew.tsScanned = none ∧ pnew.tsLoaded = none ∧ pnew.tsError = none) ∨
     (∃ q pq p1, mapGet st.packages q = some pq ∧
        (handleTcpMessage st c msg rand).packages = mapSet st.packages q p1 ∧
        FieldUpd pq p1 st.clock ∧ p1.tsReceived = pq.tsReceived)) := by
  by_cases ht : truthy msg.type = true
  · by_cases hreg : msg.type = "register_adapter"
    · have keyC : (handleTcpMessage st c msg rand).clock = st.clock := by
        simp only [handleTcpMessage]
        rw [if_neg (by simpa using ht), if_pos hreg, sendLine_clock]
        by_cases hb : truthy msg.adapterId = true <;> simp [hb]
      have keyN : st.nextId ≤ (handleTcpMessage st c msg rand).nextId := by
        simp only [handleTcpMessage]
        rw [if_neg (by simpa using ht), if_pos hreg, sendLine_nextId]
        by_cases hb : truthy msg.adapterId = true <;> simp [hb]
      have keyP : (handleTcpMessage st c msg rand).packages = st.packages := by
        simp only [handleTcpMessage]
        rw [if_neg (by simpa using ht), if_pos hreg, sendLine_packages]
        by_cases hb : truthy msg.adapterId = true <;> simp [hb]
      exact ⟨keyC, keyN, Or.inl keyP⟩
    · by_cases hrecv : msg.type = "receive_package"
      · have key : handleTcpMessage st c msg rand =
            handleReceivePackage st c msg rand := by
          simp only [handleTcpMessage]
          rw [if_neg (by simpa using ht), if_neg hreg, if_pos hrecv]
        rw [key]
        obtain ⟨h1, h2, h3⟩ := handleReceivePackage_facts st c msg rand
        refine ⟨h1, h2, ?_⟩
        rcases h3 with h3 | h3
        · exact Or.inl h3
        · exact Or.inr (Or.inl h3)
      · by_cases hscan : msg.type = "scan_package"
        · have key : handleTcpMessage st c msg rand =
              handleScanPackage st c msg := by
            simp only [handleTcpMessage]
            rw [if_neg (by simpa using ht), if_neg hreg, if_neg hrecv,
              if_pos hscan]
          rw [key]
          obtain ⟨h1, h2, h3⟩ := handleScanPackage_facts st c msg
          refine ⟨h1, le_of_eq h2.symm, ?_⟩
          rcases h3 with h3 | h3
          · exact Or.inl h3
          · exact Or.inr (Or.inr h3)
        · by_cases hload : msg.type = "load_package"
          · have key : handleTcpMessage st c msg rand =
                handleLoadPackage st c msg := by
              simp only [handleTcpMessage]
              rw [if_neg (by simpa using ht), if_neg hreg, if_neg hrecv,
                if_neg hscan, if_pos hload]
            rw [key]
            obtain ⟨h1, h2, h3⟩ := handleLoadPackage_facts st c msg
            exact ⟨h1, h2, Or.inl h3⟩
          · by_cases hsim : msg.type = "simulate_error"
            · by_cases hcond : truthy msg.packageId = true ∧
                mapHas st.packages msg.packageId = true
              · cases hq : mapGet st.packages msg.packageId with
                | none =>
                  have key : handleTcpMessage st c msg rand = st := by
                    simp only [handleTcpMessage]
                    rw [if_neg (by simpa using ht), if_neg hreg, if_neg hrecv,
                      if_neg hscan, if_neg hload, if_pos hsim, if_pos hcond,
                      hq]
                  rw [key]
                  exact ⟨rfl, le_refl _, Or.inl rfl⟩
                | some pq =>
                  have keyC : (handleTcpMessage st c msg rand).clock =
                      st.clock := by
                    simp only [handleTcpMessage]
                    rw [if_neg (by simpa using ht), if_neg hreg, if_neg hrecv,
                      if_neg hscan, if_neg hload, if_pos hsim, if_pos hcond,
                      hq, clock_broadcastToAdapters, sendLine_clock]
                  have keyN : (handleTcpMessage st c msg rand).nextId =
                      st.nextId := by
                    simp only [handleTcpMessage]
                    rw [if_neg (by simpa using ht), if_neg hreg, if_neg hrecv,
                      if_neg hscan, if_neg hload, if_pos hsim, if_pos hcond,
                      hq, nextId_broadcastToAdapters, sendLine_nextId]
                  have keyP : (handleTcpMessage st c msg rand).packages =
                      mapSet st.packages msg.packageId
                        { pq with status := .error, tsError := some st.clock } := by
                    simp only [handleTcpMessage]
                    rw [if_neg (by simpa using ht), if_neg hreg, if_neg hrecv,
                      if_neg hscan, if_neg hload, if_pos hsim, if_pos hcond,
                      hq, packages_broadcastToAdapters, sendLine_packages]
                  exact ⟨keyC, le_of_eq keyN.symm, Or.inr (Or.inr
                    ⟨msg.packageId, pq,
                      { pq with status := .error, tsError := some st.clock },
                      hq, keyP,
                      ⟨Or.inl rfl, Or.inl rfl, Or.inl rfl, Or.inl rfl,
                        Or.inr rfl⟩, rfl⟩)⟩
              · have key : handleTcpMessage st c msg rand =
                    sendLine st c (.err "package_not_found" "" "") := by
                  simp only [handleTcpMessage]
                  rw [if_neg (by simpa using ht), if_neg hreg, if_neg hrecv,
                    if_neg hscan, if_neg hload, if_pos hsim, if_neg hcond]
                rw [key]
                exact ⟨sendLine_clock _ _ _,
                  le_of_eq (sendLine_nextId _ _ _).symm,
                  Or.inl (sendLine_packages _ _ _)⟩
            · have key : handleTcpMessage st c msg rand =
                  sendLine st c (.unknownType msg.type) := by
                simp only [handleTcpMessage]
                rw [if_neg (by simpa using ht), if_neg hreg, if_neg hrecv,
                  if_neg hscan, if_neg hload, if_neg hsim]
              rw [key]
              exact ⟨sendLine_clock _ _ _,
                le_of_eq (sendLine_nextId _ _ _).symm,
                Or.inl (sendLine_packages _ _ _)⟩
  · have key : handleTcpMessage st c msg rand =
        sendLine st c (.err "missing_type" "" "") := by
      simp only [handleTcpMessage]
      rw [if_pos (by simpa using ht)]
    rw [key]
    exact ⟨sendLine_clock _ _ _, le_of_eq (sendLine_nextId _ _ _).symm,
      Or.inl (sendLine_packages _ _ _)⟩

theorem noPendingReceivedT_false_of_timer (st : ServerState) (i : Nat)
    (c : Nat) (q : String) (due : Nat)
    (h : st.timers[i]? = some (.receivedT c q due)) :
    noPendingReceivedT st q = false := by
  have hmem : Timer.receivedT c q due ∈ st.timers := List.getElem?_mem h
  unfold noPendingReceivedT
  rw [List.all_eq_false]
  exact ⟨_, hmem, by simp⟩

/-- How one timer firing can change the package store: not at all, or
one existing entry overwritten with timestamps taken at the firing
moment; the received timestamp is only rewritten by a pending
package_received callback of that very package.  The clock never goes
backwards and the counter is untouched. -/
theorem fireTimerAct_facts (st : ServerState) (i t : Nat) (rand : Bool) :
    st.clock ≤ (fireTimerAct st i t rand).clock ∧
    (fireTimerAct st i t rand).nextId = st.nextId ∧
    ((fireTimerAct st i t rand).packages = st.packages ∨
     (∃ q pq p1, mapGet st.packages q = some pq ∧
        (fireTimerAct st i t rand).packages = mapSet st.packages q p1 ∧
        FieldUpd pq p1 (fireTimerAct st i t rand).clock ∧
        (p1.tsReceived = pq.tsReceived ∨
          noPendingReceivedT st q = false))) := by
  cases hti : st.timers[i]? with
  | none =>
    have key : fireTimerAct st i t rand = st := by
      simp only [fireTimerAct]
      rw [hti]
    rw [key]
    exact ⟨le_refl _, rfl, Or.inl rfl⟩
  | some tm =>
    cases tm with
    | receivedT c q due =>
      by_cases hlt : max st.clock t < due
      · have key : fireTimerAct st i t rand = st := by
          simp only [fireTimerAct]
          rw [hti]
          simp only
          rw [if_pos hlt]
        rw [key]
        exact ⟨le_refl _, rfl, Or.inl rfl⟩
      · cases hq : mapGet st.packages q with
        | none =>
          have key : fireTimerAct st i t rand =
              { st with timers := st.timers.eraseIdx i, clock := max st.clock t } := by
            simp only [fireTimerAct]
            rw [hti]
            simp only
            rw [if_neg hlt, show mapGet ({ st with timers := st.timers.eraseIdx i, clock := max st.clock t } : ServerState).packages q = none from hq]
          rw [key]
          exact ⟨le_max_left _ _, rfl, Or.inl rfl⟩
        | some pq =>
          have keyC : (fireTimerAct st i t rand).clock = max st.clock t := by
            simp only [fireTimerAct]
            rw [hti]
            simp only
            rw [if_neg hlt, show mapGet ({ st with timers := st.timers.eraseIdx i, clock := max st.clock t } : ServerState).packages q = some pq from hq]
            simp only
            exact sendLine_clock _ _ _
          have keyN : (fireTimerAct st i t rand).nextId = st.nextId := by
            simp only [fireTimerAct]
            rw [hti]
            simp only
            rw [if_neg hlt, show mapGet ({ st with timers := st.timers.eraseIdx i, clock := max st.clock t } : ServerState).packages q = some pq from hq]
            simp only
            exact sendLine_nextId _ _ _
          have keyP : (fireTimerAct st i t rand).packages =
              mapSet st.packages q
                { pq with status := .received, tsReceived := some (max st.clock t) } := by
            simp only [fireTimerAct]
            rw [hti]
            simp only
            rw [if_neg hlt, show mapGet ({ st with timers := st.timers.eraseIdx i, clock := max st.clock t } : ServerState).packages q = some pq from hq]
            simp only
            exact sendLine_packages _ _ _
          refine ⟨by rw [keyC]; exact le_max_left _ _, keyN, Or.inr ⟨q, pq,
            { pq with status := .received, tsReceived := some (max st.clock t) }, hq, keyP, ?_,
            Or.inr (noPendingReceivedT_false_of_timer st i c q due hti)⟩⟩
          rw [keyC]
          exact ⟨Or.inr rfl, Or.inl rfl, Or.inl rfl, Or.inl rfl, Or.inl rfl⟩
    | readyT c q due =>
      by_cases hlt : max st.clock t < due
      · have key : fireTimerAct st i t rand = st := by
          simp only [fireTimerAct]
          rw [hti]
          simp only
          rw [if_pos hlt]
        rw [key]
        exact ⟨le_refl _, rfl, Or.inl rfl⟩
      · cases hq : mapGet st.packages q with
        | none =>
          have key : fireTimerAct st i t rand =
              { st with timers := st.timers.eraseIdx i, clock := max st.clock t } := by
            simp only [fireTimerAct]
            rw [hti]
            simp only
            rw [if_neg hlt, show mapGet ({ st with timers := st.timers.eraseIdx i, clock := max st.clock t } : ServerState).packages q = none from hq]
          rw [key]
          exact ⟨le_max_left _ _, rfl, Or.inl rfl⟩
        | some pq =>
          by_cases hinj : (st.errorMode || rand) = true
          · have keyC : (fireTimerAct st i t rand).clock = max st.clock t := by
              simp only [fireTimerAct]
              rw [hti]
              simp only
              rw [if_neg hlt, show mapGet ({ st with timers := st.timers.eraseIdx i, clock := max st.clock t } : ServerState).packages q = some pq from hq]
              simp only
              rw [if_pos hinj]
              exact sendLine_clock _ _ _
            have keyN : (fireTimerAct st i t rand).nextId = st.nextId := by
              simp only [fireTimerAct]
              rw [hti]
              simp only
              rw [if_neg hlt, show mapGet ({ st with timers := st.timers.eraseIdx i, clock := max st.clock t } : ServerState).packages q = some pq from hq]
              simp only
              rw [if_pos hinj]
              exact sendLine_nextId _ _ _
            have keyP : (fireTimerAct st i t rand).packages =
                mapSet st.packages q
                  { pq with status := .error, tsError := some (max st.clock t) } := by
              simp only [fireTimerAct]
              rw [hti]
              simp only
              rw [if_neg hlt, show mapGet ({ st with timers := st.timers.eraseIdx i, clock := max st.clock t } : ServerState).packages q = some pq from hq]
              simp only
              rw [if_pos hinj]
              exact sendLine_packages _ _ _
            refine ⟨by rw [keyC]; exact le_max_left _ _, keyN, Or.inr ⟨q, pq,
              { pq with status := .error, tsError := some (max st.clock t) }, hq, keyP, ?_,
              Or.inl rfl⟩⟩
            rw [keyC]
            exact ⟨Or.inl rfl, Or.inl rfl, Or.inl rfl, Or.inl rfl, Or.inr rfl⟩
          · have keyC : (fireTimerAct st i t rand).clock = max st.clock t := by
              simp only [fireTimerAct]
              rw [hti]
              simp only
              rw [if_neg hlt, show mapGet ({ st with timers := st.timers.eraseIdx i, clock := max st.clock t } : ServerState).packages q = some pq from hq]
              simp only
              rw [if_neg (by simpa using hinj)]
              exact sendLine_clock _ _ _
            have keyN : (fireTimerAct st i t rand).nextId = st.nextId := by
              simp only [fireTimerAct]
              rw [hti]
              simp only
              rw [if_neg hlt, show mapGet ({ st with timers := st.timers.eraseIdx i, clock := max st.clock t } : ServerState).packages q = some pq from hq]
              simp only
              rw [if_neg (by simpa using hinj)]
              exact sendLine_nextId _ _ _
            have keyP : (fireTimerAct st i t rand).packages =
                mapSet st.packages q
                  { pq with status := .ready_for_loading, tsReady := some (max st.clock t) } := by
              simp only [fireTimerAct]
              rw [hti]
              simp only
              rw [if_neg hlt, show mapGet ({ st with timers := st.timers.eraseIdx i, clock := max st.clock t } : ServerState).packages q = some pq from hq]
              simp only
              rw [if_neg (by simpa using hinj)]
              exact sendLine_packages _ _ _
            refine ⟨by rw [keyC]; exact le_max_left _ _, keyN, Or.inr ⟨q, pq,
              { pq with status := .ready_for_loading, tsReady := some (max st.clock t) }, hq, keyP, ?_,
              Or.inl rfl⟩⟩
            rw [keyC]
            exact ⟨Or.inl rfl, Or.inr rfl, Or.inl rfl, Or.inl rfl, Or.inl rfl⟩
    | loadT c q vid due =>
      by_cases hlt : max st.clock t < due
      · have key : fireTimerAct st i t rand = st := by
          simp only [fireTimerAct]
          rw [hti]
          simp only
          rw [if_pos hlt]
        rw [key]
        exact ⟨le_refl _, rfl, Or.inl rfl⟩
      · cases hq : mapGet st.packages q with
        | none =>
          have key : fireTimerAct st i t rand =
              { st with timers := st.timers.eraseIdx i, clock := max st.clock t } := by
            simp only [fireTimerAct]
            rw [hti]
            simp only
            rw [if_neg hlt, show mapGet ({ st with timers := st.timers.eraseIdx i, clock := max st.clock t } : ServerState).packages q = none from hq]
          rw [key]
          exact ⟨le_max_left _ _, rfl, Or.inl rfl⟩
        | some pq =>
          by_cases hinj : (st.errorMode || rand) = true
          · have keyC : (fireTimerAct st i t rand).clock = max st.clock t := by
              simp only [fireTimerAct]
              rw [hti]
              simp only
              rw [if_neg hlt, show mapGet ({ st with timers := st.timers.eraseIdx i, clock := max st.clock t } : ServerState).packages q = some pq from hq]
              simp only
              rw [if_pos hinj]
              exact sendLine_clock _ _ _
            have keyN : (fireTimerAct st i t rand).nextId = st.nextId := by
              simp only [fireTimerAct]
              rw [hti]
              simp only
              rw [if_neg hlt, show mapGet ({ st with timers := st.timers.eraseIdx i, clock := max st.clock t } : ServerState).packages q = some pq from hq]
              simp only
              rw [if_pos hinj]
              exact sendLine_nextId _ _ _
            have keyP : (fireTimerAct st i t rand).packages =
                mapSet st.packages q
                  { pq with status := .error, tsError := some (max st.clock t) } := by
              simp only [fireTimerAct]
              rw [hti]
              simp only
              rw [if_neg hlt, show mapGet ({ st with timers := st.timers.eraseIdx i, clock := max st.clock t } : ServerState).packages q = some pq from hq]
              simp only
              rw [if_pos hinj]
              exact sendLine_packages _ _ _
            refine ⟨by rw [keyC]; exact le_max_left _ _, keyN, Or.inr ⟨q, pq,
              { pq with status := .error, tsError := some (max st.clock t) }, hq, keyP, ?_,
              Or.inl rfl⟩⟩
            rw [keyC]
            exact ⟨Or.inl rfl, Or.inl rfl, Or.inl rfl, Or.inl rfl, Or.inr rfl⟩
          · have keyC : (fireTimerAct st i t rand).clock = max st.clock t := by
              simp only [fireTimerAct]
              rw [hti]
              simp only
              rw [if_neg hlt, show mapGet ({ st with timers := st.timers.eraseIdx i, clock := max st.clock t } : ServerState).packages q = some pq from hq]
              simp only
              rw [if_neg (by simpa using hinj)]
              exact sendLine_clock _ _ _
            have keyN : (fireTimerAct st i t rand).nextId = st.nextId := by
              simp only [fireTimerAct]
              rw [hti]
              simp only
              rw [if_neg hlt, show mapGet ({ st with timers := st.timers.eraseIdx i, clock := max st.clock t } : ServerState).packages q = some pq from hq]
              simp only
              rw [if_neg (by simpa using hinj)]
              exact sendLine_nextId _ _ _
            have keyP : (fireTimerAct st i t rand).packages =
                mapSet st.packages q
                  { pq with status := .loaded, assignedVehicle := vid, tsLoaded := some (max st.clock t) } := by
              simp only [fireTimerAct]
              rw [hti]
              simp only
              rw [if_neg hlt, show mapGet ({ st with timers := st.timers.eraseIdx i, clock := max st.clock t } : ServerState).packages q = some pq from hq]
              simp only
              rw [if_neg (by simpa using hinj)]
              exact sendLine_packages _ _ _
            refine ⟨by rw [keyC]; exact le_max_left _ _, keyN, Or.inr ⟨q, pq,
              { pq with status := .loaded, assignedVehicle := vid, tsLoaded := some (max st.clock t) }, hq, keyP, ?_,
              Or.inl rfl⟩⟩
            rw [keyC]
            exact ⟨Or.inl rfl, Or.inl rfl, Or.inl rfl, Or.inr rfl, Or.inl rfl⟩

/-- How one external stimulus can change the package store. -/
theorem step_packages_facts (st : ServerState) (a : Action) :
    st.clock ≤ (step st a).clock ∧
    st.nextId ≤ (step st a).nextId ∧
    ((step st a).packages = st.packages ∨
     (∃ pnew, (step st a).packages =
        mapSet st.packages (makePackageId st.nextId) pnew ∧
        st.nextId < (step st a).nextId ∧
        pnew.tsReceived = some (step st a).clock ∧ pnew.tsReady = none ∧
        pnew.tsScanned = none ∧ pnew.tsLoaded = none ∧ pnew.tsError = none) ∨
     (∃ q pq p1, mapGet st.packages q = some pq ∧
        (step st a).packages = mapSet st.packages q p1 ∧
        FieldUpd pq p1 (step st a).clock ∧
        (p1.tsReceived = pq.tsReceived ∨
          noPendingReceivedT st q = false))) := by
  cases a with
  | connect c =>
    by_cases hc : mapHas st.conns c = true
    · have key : step st (.connect c) = st := by
        simp only [step]
        rw [if_pos hc]
      rw [key]
      exact ⟨le_refl _, le_refl _, Or.inl rfl⟩
    · have key : step st (.connect c) =
          { st with conns := st.conns ++ [(c, {})] } := by
        simp only [step]
        rw [if_neg hc]
      rw [key]
      exact ⟨le_refl _, le_refl _, Or.inl rfl⟩
  | setErrorMode b =>
    have key : step st (.setErrorMode b) = { st with errorMode := b } := rfl
    rw [key]
    exact ⟨le_refl _, le_refl _, Or.inl rfl⟩
  | close c t =>
    cases hcs : mapGet st.conns c with
    | none =>
      have key : step st (.close c t) = st := by
        simp only [step]
        rw [hcs]
      rw [key]
      exact ⟨le_refl _, le_refl _, Or.inl rfl⟩
    | some cs =>
      by_cases hcl : cs.closed = true
      · have key : step st (.close c t) = st := by
          simp only [step]
          rw [hcs]
          simp only
          rw [if_pos hcl]
        rw [key]
        exact ⟨le_refl _, le_refl _, Or.inl rfl⟩
      · by_cases hdel : truthy cs.adapterId = true ∧
          mapHas ({ st with clock := max st.clock t, conns := mapAdjust st.conns c (fun x => { x with closed := true }) } : ServerState).adapters cs.adapterId = true
        · have key : step st (.close c t) =
              { st with
                clock := max st.clock t
                conns := mapAdjust st.conns c (fun x => { x with closed := true })
                adapters := mapDelete st.adapters cs.adapterId } := by
            simp only [step]
            rw [hcs]
            simp only
            rw [if_neg hcl, if_pos hdel]
          rw [key]
          exact ⟨le_max_left _ _, le_refl _, Or.inl rfl⟩
        · have key : step st (.close c t) =
              { st with
                clock := max st.clock t
                conns := mapAdjust st.conns c
                  (fun x => { x with closed := true }) } := by
            simp only [step]
            rw [hcs]
            simp only
            rw [if_neg hcl, if_neg hdel]
          rw [key]
          exact ⟨le_max_left _ _, le_refl _, Or.inl rfl⟩
  | msgA c t m rand =>
    cases hcs : mapGet st.conns c with
    | none =>
      have key : step st (.msgA c t m rand) = st := by
        simp only [step]
        rw [hcs]
      rw [key]
      exact ⟨le_refl _, le_refl _, Or.inl rfl⟩
    | some cs =>
      by_cases hcl : cs.closed = true
      · have key : step st (.msgA c t m rand) = st := by
          simp only [step]
          rw [hcs]
          simp only
          rw [if_pos hcl]
        rw [key]
        exact ⟨le_refl _, le_refl _, Or.inl rfl⟩
      · have key : step st (.msgA c t m rand) =
            handleTcpMessage { st with clock := max st.clock t } c m rand := by
          simp only [step]
          rw [hcs]
          simp only
          rw [if_neg hcl]
        obtain ⟨hC, hN, hshape⟩ :=
          handleTcpMessage_facts { st with clock := max st.clock t } c m rand
        rw [key]
        refine ⟨by rw [hC]; exact le_max_left _ _, by exact hN, ?_⟩
        rcases hshape with h1 | ⟨pnew, h1, h2, h3, h4, h5, h6, h7⟩ |
          ⟨q, pq, p1, hq, h1, h2, h3⟩
        · exact Or.inl (by exact h1)
        · refine Or.inr (Or.inl ⟨pnew, by exact h1, by exact h2, ?_, h4, h5, h6, h7⟩)
          rw [hC]
          exact h3
        · refine Or.inr (Or.inr ⟨q, pq, p1, by exact hq, by exact h1, ?_,
            Or.inl h3⟩)
          rw [hC]
          exact h2
  | fire i t rand =>
    have key : step st (.fire i t rand) = fireTimerAct st i t rand := rfl
    obtain ⟨hC, hN, hshape⟩ := fireTimerAct_facts st i t rand
    rw [key]
    refine ⟨hC, le_of_eq hN.symm, ?_⟩
    rcases hshape with h1 | ⟨q, pq, p1, hq, h1, h2, h3⟩
    · exact Or.inl h1
    · exact Or.inr (Or.inr ⟨q, pq, p1, hq, h1, h2, h3⟩)

/-- Every recorded timestamp of the package is at most the clock. -/
def tsBelow (p : Package) (cl : Nat) : Prop :=
  (∀ v, p.tsReceived = some v → v ≤ cl) ∧
  (∀ v, p.tsReady = some v → v ≤ cl) ∧
  (∀ v, p.tsScanned = some v → v ≤ cl) ∧
  (∀ v, p.tsLoaded = some v → v ≤ cl) ∧
  (∀ v, p.tsError = some v → v ≤ cl)

/-- Reachability invariant: every stored package is keyed by an
already-allocated generated id, and no recorded timestamp is in the
future. -/
def INV (st : ServerState) : Prop :=
  (∀ e ∈ st.packages, ∃ k, e.1 = makePackageId k ∧ k < st.nextId) ∧
  (∀ e ∈ st.packages, tsBelow e.2 st.clock)

theorem tsBelow_mono (p : Package) (cl cl' : Nat) (h : cl ≤ cl')
    (ht : tsBelow p cl) : tsBelow p cl' :=
  ⟨fun v hv => (ht.1 v hv).trans h, fun v hv => (ht.2.1 v hv).trans h,
    fun v hv => (ht.2.2.1 v hv).trans h, fun v hv => (ht.2.2.2.1 v hv).trans h,
    fun v hv => (ht.2.2.2.2 v hv).trans h⟩

theorem INV_initState : INV initState := by
  constructor <;> intro e he <;> simp [initState] at he

theorem INV_step (st : ServerState) (a : Action) (h : INV st) :
    INV (step st a) := by
  obtain ⟨hids, hts⟩ := h
  obtain ⟨hcl, hni, hshape⟩ := step_packages_facts st a
  rcases hshape with hsame | ⟨pnew, hP, hlt, hrc, hr1, hr2, hr3, hr4⟩ |
    ⟨q, pq, p1, hq, hP, hfu, _⟩
  · constructor
    · intro e he
      rw [hsame] at he
      obtain ⟨k, hk1, hk2⟩ := hids e he
      exact ⟨k, hk1, lt_of_lt_of_le hk2 hni⟩
    · intro e he
      rw [hsame] at he
      exact tsBelow_mono _ _ _ hcl (hts e he)
  · constructor
    · intro e he
      rw [hP] at he
      rcases mem_mapSet _ _ _ _ he with h1 | h1
      · obtain ⟨k, hk1, hk2⟩ := hids e h1
        exact ⟨k, hk1, lt_of_lt_of_le hk2 hni⟩
      · exact ⟨st.nextId, by rw [h1], hlt⟩
    · intro e he
      rw [hP] at he
      rcases mem_mapSet _ _ _ _ he with h1 | h1
      · exact tsBelow_mono _ _ _ hcl (hts e h1)
      · rw [h1]
        refine ⟨?_, ?_, ?_, ?_, ?_⟩
        · intro v hv
          rw [hrc] at hv
          exact le_of_eq (Option.some.inj hv).symm
        · intro v hv
          rw [hr1] at hv
          cases hv
        · intro v hv
          rw [hr2] at hv
          cases hv
        · intro v hv
          rw [hr3] at hv
          cases hv
        · intro v hv
          rw [hr4] at hv
          cases hv
  · have hqmem := mapGet_mem _ _ _ hq
    obtain ⟨k, hk1, hk2⟩ := hids (q, pq) hqmem
    have htq := hts (q, pq) hqmem
    constructor
    · intro e he
      rw [hP] at he
      rcases mem_mapSet _ _ _ _ he with h1 | h1
      · obtain ⟨k', hk1', hk2'⟩ := hids e h1
        exact ⟨k', hk1', lt_of_lt_of_le hk2' hni⟩
      · exact ⟨k, by rw [h1]; exact hk1, lt_of_lt_of_le hk2 hni⟩
    · intro e he
      rw [hP] at he
      rcases mem_mapSet _ _ _ _ he with h1 | h1
      · exact tsBelow_mono _ _ _ hcl (hts e h1)
      · rw [h1]
        obtain ⟨f1, f2, f3, f4, f5⟩ := hfu
        refine ⟨?_, ?_, ?_, ?_, ?_⟩
        · intro v hv
          rcases f1 with hf | hf
          · rw [hf] at hv
            exact (htq.1 v hv).trans hcl
          · rw [hf] at hv
            exact le_of_eq (Option.some.inj hv).symm
        · intro v hv
          rcases f2 with hf | hf
          · rw [hf] at hv
            exact (htq.2.1 v hv).trans hcl
          · rw [hf] at hv
            exact le_of_eq (Option.some.inj hv).symm
        · intro v hv
          rcases f3 with hf | hf
          · rw [hf] at hv
            exact (htq.2.2.1 v hv).trans hcl
          · rw [hf] at hv
            exact le_of_eq (Option.some.inj hv).symm
        · intro v hv
          rcases f4 with hf | hf
          · rw [hf] at hv
            exact (htq.2.2.2.1 v hv).trans hcl
          · rw [hf] at hv
            exact le_of_eq (Option.some.inj hv).symm
        · intro v hv
          rcases f5 with hf | hf
          · rw [hf] at hv
            exact (htq.2.2.2.2 v hv).trans hcl
          · rw [hf] at hv
            exact le_of_eq (Option.some.inj hv).symm

theorem INV_run_from (acts : List Action) :
    ∀ st, INV st → INV (run st acts) := by
  induction acts with
  | nil => intro st h; exact h
  | cons a acts ih =>
    intro st h
    exact ih (step st a) (INV_step st a h)

theorem INV_run (acts : List Action) : INV (run initState acts) :=
  INV_run_from acts initState INV_initState

theorem c1_step_core (st : ServerState) (a : Action) (pid : String)
    (p p' : Package) (r : Nat)
    (hinv : INV st)
    (hnp : noPendingReceivedT st pid = true)
    (hp : mapGet st.packages pid = some p)
    (hr : p.tsReceived = some r)
    (hp' : mapGet (step st a).packages pid = some p') :
    p'.tsReceived = some r ∧
    (p'.tsReady = p.tsReady ∨ ∃ v, p'.tsReady = some v ∧ r ≤ v) ∧
    (p'.tsScanned = p.tsScanned ∨ ∃ v, p'.tsScanned = some v ∧ r ≤ v) ∧
    (p'.tsLoaded = p.tsLoaded ∨ ∃ v, p'.tsLoaded = some v ∧ r ≤ v) ∧
    (p'.tsError = p.tsError ∨ ∃ v, p'.tsError = some v ∧ r ≤ v) := by
  obtain ⟨hids, hts⟩ := hinv
  obtain ⟨hcl, hni, hshape⟩ := step_packages_facts st a
  have hmem := mapGet_mem _ _ _ hp
  have hrle : r ≤ st.clock := (hts (pid, p) hmem).1 r hr
  rcases hshape with hsame | ⟨pnew, hP, hlt, hrc, hn1, hn2, hn3, hn4⟩ |
    ⟨q, pq, p1, hq, hP, hfu, hrec⟩
  · rw [hsame, hp] at hp'
    have hpe : p' = p := (Option.some.inj hp').symm
    rw [hpe]
    exact ⟨hr, Or.inl rfl, Or.inl rfl, Or.inl rfl, Or.inl rfl⟩
  · have hne : ¬ pid = makePackageId st.nextId := by
      intro hcontra
      obtain ⟨k, hk1, hk2⟩ := hids (pid, p) hmem
      rw [hcontra] at hk1
      have := makePackageId_inj _ _ hk1
      omega
    rw [hP, mapGet_mapSet_ne _ _ _ _ hne, hp] at hp'
    have hpe : p' = p := (Option.some.inj hp').symm
    rw [hpe]
    exact ⟨hr, Or.inl rfl, Or.inl rfl, Or.inl rfl, Or.inl rfl⟩
  · by_cases hpq : pid = q
    · subst hpq
      have hpqe : pq = p := Option.some.inj (hq.symm.trans hp)
      rw [hP, mapGet_mapSet_self] at hp'
      have hp1 : p' = p1 := (Option.some.inj hp').symm
      have hrecv : p1.tsReceived = pq.tsReceived := by
        rcases hrec with h | h
        · exact h
        · rw [h] at hnp
          cases hnp
      obtain ⟨f1, f2, f3, f4, f5⟩ := hfu
      have hcl' : r ≤ (step st a).clock := hrle.trans hcl
      refine ⟨by rw [hp1, hrecv, hpqe, hr], ?_, ?_, ?_, ?_⟩
      · rcases f2 with hf | hf
        · exact Or.inl (by rw [hp1, hf, hpqe])
        · exact Or.inr ⟨(step st a).clock, by rw [hp1, hf], hcl'⟩
      · rcases f3 with hf | hf
        · exact Or.inl (by rw [hp1, hf, hpqe])
        · exact Or.inr ⟨(step st a).clock, by rw [hp1, hf], hcl'⟩
      · rcases f4 with hf | hf
        · exact Or.inl (by rw [hp1, hf, hpqe])
        · exact Or.inr ⟨(step st a).clock, by rw [hp1, hf], hcl'⟩
      · rcases f5 with hf | hf
        · exact Or.inl (by rw [hp1, hf, hpqe])
        · exact Or.inr ⟨(step st a).clock, by rw [hp1, hf], hcl'⟩
    · rw [hP, mapGet_mapSet_ne _ _ _ _ hpq, hp] at hp'
      have hpe : p' = p := (Option.some.inj hp').symm
      rw [hpe]
      exact ⟨hr, Or.inl rfl, Or.inl rfl, Or.inl rfl, Or.inl rfl⟩

/-- C1 amended: once the first scheduled callback of a package's
receive_package has fired (no package_received timer for it is still
pending in the reachable state), the received timestamp it wrote is
final, and every timestamp recorded for the package by any later
command or timer firing is at least that received timestamp; only
timestamps written before that callback fired (for example by a
scan_package issued between the immediate ack and the callback) can be
smaller — the callback overwrites received with its own firing time. -/
theorem c1_received_final_after_first_callback
    (acts : List Action) (a : Action) (pid : String) (p p' : Package) (r : Nat)
    (hnp : noPendingReceivedT (run initState acts) pid = true)
    (hp : mapGet (run initState acts).packages pid = some p)
    (hr : p.tsReceived = some r)
    (hp' : mapGet (step (run initState acts) a).packages pid = some p') :
    p'.tsReceived = some r ∧
    (p'.tsReady = p.tsReady ∨ ∃ v, p'.tsReady = some v ∧ r ≤ v) ∧
    (p'.tsScanned = p.tsScanned ∨ ∃ v, p'.tsScanned = some v ∧ r ≤ v) ∧
    (p'.tsLoaded = p.tsLoaded ∨ ∃ v, p'.tsLoaded = some v ∧ r ≤ v) ∧
    (p'.tsError = p.tsError ∨ ∃ v, p'.tsError = some v ∧ r ≤ v) :=
  c1_step_core (run initState acts) a pid p p' r (INV_run acts) hnp hp hr hp'

/-- The trace refuting C1 as stated: receive at time 0, scan at time
1, first scheduled callback fires at time 3000 and overwrites the
received timestamp. -/
def stC1cex : ServerState :=
  run initState
    [.connect 0,
     .msgA 0 0 { type := "receive_package", orderId := "o1" } false,
     .msgA 0 1 { type := "scan_package", packageId := "pkg-" } false,
     .fire 0 3000 false]

/-- C1 counterexample: a scan_package issued between the immediate ack
and the first scheduled callback leaves a scanned timestamp (1) that
is earlier than the final received timestamp (3000), because the
callback overwrites received with its firing time — so received is not
≤ every other recorded timestamp. -/
theorem c1_received_not_least_cex :
    tsReceivedOf stC1cex "pkg-" = some 3000 ∧
    tsScannedOf stC1cex "pkg-" = some 1 ∧
    ¬ (∀ rv sv : Nat, tsReceivedOf stC1cex "pkg-" = some rv →
        tsScannedOf stC1cex "pkg-" = some sv → rv ≤ sv) := by
  refine ⟨by decide, by decide, ?_⟩
  intro h
  have := h 3000 1 (by decide) (by decide)
  omega

/-- Witness fixtures for the amended C1: the state after receive and
the fired first callback, and the package before and after a late
scan. -/
def c1ActsW : List Action :=
  [.connect 0,
   .msgA 0 0 { type := "receive_package", orderId := "o1" } false,
   .fire 0 3000 false]

def pkgC1 : Package :=
  { packageId := "pkg-"
    orderId := "o1"
    status := .received
    tsReceived := some 3000 }

def pkgC1s : Package :=
  { packageId := "pkg-"
    orderId := "o1"
    status := .scanned
    tsReceived := some 3000
    tsScanned := some 4000 }

theorem c1_received_final_after_first_callback_witness :
    noPendingReceivedT (run initState c1ActsW) "pkg-" = true ∧
    mapGet (run initState c1ActsW).packages "pkg-" = some pkgC1 ∧
    pkgC1.tsReceived = some 3000 ∧
    mapGet (step (run initState c1ActsW)
      (.msgA 0 4000 { type := "scan_package", packageId := "pkg-" }
        false)).packages "pkg-" = some pkgC1s ∧
    pkgC1s.tsReceived = some 3000 ∧
    (∃ v, pkgC1s.tsScanned = some v ∧ 3000 ≤ v) := by
  have h := c1_received_final_after_first_callback c1ActsW
    (.msgA 0 4000 { type := "scan_package", packageId := "pkg-" } false)
    "pkg-" pkgC1 pkgC1s 3000 (by decide) (by decide) rfl (by decide)
  exact ⟨by decide, by decide, rfl, by decide, h.1,
    h.2.2.1.resolve_left (by decide)⟩

end Wms
